import Mathlib

/-!
Verification of the SQL-inference-analyzer pipeline (RAG/sql_validator.py,
RAG/sql_generator.py, RAG/rag_system.py, RAG/training_data.py) against its
specification.  The Python sources are embedded shallowly: pure string
manipulation is translated to executable Lean functions on `String` /
`List Char`; the external collaborators (the live database plan call, the
LLM, the embedding model) are abstracted as function-valued parameters, as
the spec treats them (spec section 1: "Out of scope ... external
collaborators, specified only at their interfaces").
-/

/-! ## String utilities mirroring Python's operations

Python's `in` (substring test), `str.lower`, and the specific regular
expressions used by the source are modelled as executable scanners.  All
the regular expressions involved are applied to ASCII SQL/question text,
where `Char.toLower` agrees with Python's `str.lower`.
-/

/-- Python's word-character class `\w` = `[A-Za-z0-9_]` (ASCII text). -/
def isWordChar (c : Char) : Bool := c.isAlphanum || c = '_'

/-- Python's whitespace class `\s` over ASCII: space, tab, newline,
carriage return, vertical tab, form feed. -/
def isPyWs (c : Char) : Bool :=
  c = ' ' || c = '\t' || c = '\n' || c = '\r' || c = '\x0b' || c = '\x0c'

/-- Lower-case a character list (ASCII: agrees with Python `str.lower`). -/
def lowerL (l : List Char) : List Char := l.map Char.toLower

/-- Lower-case a string, as Python `str.lower` on ASCII text. -/
def lowerS (s : String) : String := String.mk (lowerL s.toList)

/-- Python's `s.strip() == ""` / `not s` test: the string has no
non-whitespace character. -/
def isAllWs (s : String) : Bool := s.toList.all isPyWs

/-- `occursIn hay needle`: Python's `needle in hay` substring test. -/
def occursIn : List Char → List Char → Bool
  | hay, needle =>
    match hay with
    | [] => needle.isEmpty
    | _ :: t => needle.isPrefixOf hay || occursIn t needle

/-- Python's `sub in hay` on strings. -/
def strContains (hay sub : String) : Bool := occursIn hay.toList sub.toList

/-- Lexicographic order on character lists by code point. -/
def strLtL : List Char → List Char → Bool
  | [], [] => false
  | [], _ :: _ => true
  | _ :: _, [] => false
  | a :: as, b :: bs =>
    if a.toNat < b.toNat then true
    else if b.toNat < a.toNat then false
    else strLtL as bs

/-- Python's `a < b` on strings: lexicographic by code point. -/
def pyStrLt (a b : String) : Bool := strLtL a.toList b.toList

/-- No word character stands before the match position (regex `\b` on the
left, for patterns that begin with a word character). -/
def boundaryBefore : Option Char → Bool
  | none => true
  | some c => !isWordChar c

/-- No word character stands after the match (regex `\b` on the right, for
patterns that end with a word character). -/
def boundaryAfter : List Char → Bool
  | [] => true
  | c :: _ => !isWordChar c

/-- The pattern `w` matches at the head of `s` with a right word boundary. -/
def wordAt (w s : List Char) : Bool := w.isPrefixOf s && boundaryAfter (s.drop w.length)

/-- Scanner for `re.search(r'\b' + w + r'\b', s)` where `w` begins and ends
with a word character (true of every pattern the source uses this way):
`prev` is the character just before the current position. -/
def occursWordAux (prev : Option Char) (w : List Char) : List Char → Bool
  | [] => false
  | c :: t => (boundaryBefore prev && wordAt w (c :: t)) || occursWordAux (some c) w t

/-- `re.search(r'\b' + w + r'\b', s)` succeeds (patterns framed by word
characters). -/
def occursWord (w s : List Char) : Bool := occursWordAux none w s

/-- Case-insensitive word search, `re.search(r'\b'+w+r'\b', s, re.IGNORECASE)`:
on ASCII this equals the case-sensitive search on the lowered texts. -/
def occursWordCI (w s : String) : Bool := occursWord (lowerL w.toList) (lowerS s).toList

/-! ## The validator's static tables (sql_validator.py, training_data.py) -/

/-- The tables introspected by `EnhancedSQLValidator._extract_real_schema`
(sql_validator.py line 114); the model assumes all eight introspections
succeed, so `allowed_tables` holds all of them. -/
def allowedTables : List String :=
  ["vts_alert_history", "vts_truck_master", "vts_ongoing_trips", "alerts",
   "vts_tripauditmaster", "tt_risk_score", "transporter_risk_score",
   "completed_trips_risk_score"]

/-- `DATA_MODEL["forbidden_joins"]` (training_data.py lines 1585-1590); each
frozenset is written in its listed element order. -/
def forbiddenJoinRules : List (List String) :=
  [["alerts", "vts_alert_history"], ["alerts", "tt_risk_score"]]

/-- The `common_errors` alias table of `validate_column_references`
(sql_validator.py lines 319-328), in dict insertion order. -/
def commonColumnErrors : List (String × String) :=
  [("vah.vehicle_number", "vah.tl_number"),
   ("a.device_tamper_count", "vah.device_tamper_count"),
   ("a.device_offline_count", "vah.device_offline_count"),
   ("vtm.blacklist", "vtm.whether_truck_blacklisted"),
   ("blacklisted", "whether_truck_blacklisted"),
   ("is_blacklisted", "whether_truck_blacklisted"),
   ("violation_types", "violation_type"),
   ("capacity", "capacity_of_the_truck")]

/-- The mutating keywords of the security check (sql_validator.py line 154). -/
def dangerousOps : List String := ["delete", "update", "insert", "drop", "alter", "truncate"]

/-- `EnhancedSQLValidator.validate_column_references` (sql_validator.py lines
316-338): the first alias-table entry whose key word-occurs (case-insensitive)
in the SQL yields a failure; the code after the early `return True` on line
338 is unreachable and is not modelled. -/
def validateColumnReferences (sql : String) : Bool × String :=
  match commonColumnErrors.find? (fun p => occursWordCI p.1 sql) with
  | some p => (false, "Invalid column reference: '" ++ p.1 ++ "' -> use '" ++ p.2 ++ "'")
  | none => (true, "Column references OK")

/-- Scanner for `re.search(r',\s*\n\s*FROM', sql, re.IGNORECASE)` applied to
the lowered text: a comma followed by a whitespace run that contains a
newline and then `from`. -/
def trailingCommaNl : List Char → Bool
  | [] => false
  | c :: t =>
    (c = ',' &&
      (let ws := t.takeWhile isPyWs
       ws.contains '\n' && "from".toList.isPrefixOf (t.drop ws.length)))
    || trailingCommaNl t

/-- Scanner for `re.search(r"'[^']*'\s*\+\s*", sql)`: a single-quoted literal,
optional whitespace, then a plus sign.  (The closing quote of the literal is
forced to be the first quote after the opening one.) -/
def quotedThenPlus : List Char → Bool
  | [] => false
  | c :: t =>
    (c = '\'' &&
      (let body := t.takeWhile (fun x => x ≠ '\'')
       match t.drop body.length with
       | '\'' :: rest =>
         match rest.dropWhile isPyWs with
         | '+' :: _ => true
         | _ => false
       | _ => false))
    || quotedThenPlus t

/-- Scanner for `re.search(r"\s*\+\s*'[^']*'", sql)`: since the leading
`\s*` may be empty this is a plus sign, optional whitespace, then a
single-quoted literal. -/
def plusThenQuoted : List Char → Bool
  | [] => false
  | c :: t =>
    (c = '+' &&
      (match t.dropWhile isPyWs with
       | '\'' :: r =>
         match r.dropWhile (fun x => x ≠ '\'') with
         | '\'' :: _ => true
         | _ => false
       | _ => false))
    || plusThenQuoted t

/-- `EnhancedSQLValidator._pre_validate_sql` (sql_validator.py lines 356-373).
The first component is the `valid` field, the second the `error` text
(empty string standing for Python's `None`). -/
def preValidateSql (sql : String) : Bool × String :=
  if trailingCommaNl (lowerS sql).toList then
    (false, " Trailing comma before FROM clause. Remove the comma after the last SELECT column.")
  else if quotedThenPlus sql.toList || plusThenQuoted sql.toList then
    (false, " Invalid string concatenation. Use || operator instead of +")
  else (true, "")

/-- The tables of `allowed_tables` mentioned in the lowered SQL with word
boundaries (`_check_forbidden_joins`, sql_validator.py line 237). -/
def detectedTables (sql : String) : List String :=
  allowedTables.filter (fun t => occursWord t.toList (lowerS sql).toList)

/-- The `' and '.join(rule)` of the forbidden-join message; the model fixes
the frozenset iteration order to the element order of `forbiddenJoinRules`. -/
def joinNames (rule : List String) : String := String.intercalate " and " rule

/-- The message of `_check_forbidden_joins` (sql_validator.py line 248). -/
def forbiddenJoinMsg (rule : List String) : String :=
  " Forbidden Join: Joining tables '" ++ joinNames rule ++
    "' directly is not allowed. You must join through a master table like vts_truck_master."

/-- The rule loop of `_check_forbidden_joins` (sql_validator.py lines 243-248):
a rule that is a subset of the detected tables rejects unless
`vts_truck_master` is among the detected tables. -/
def checkForbiddenJoinsAux (detected : List String) : List (List String) → Bool × String
  | [] => (false, "")
  | r :: rs =>
    if r.all (fun t => detected.contains t) then
      if detected.contains "vts_truck_master" then checkForbiddenJoinsAux detected rs
      else (true, forbiddenJoinMsg r)
    else checkForbiddenJoinsAux detected rs

/-- `EnhancedSQLValidator._check_forbidden_joins` (sql_validator.py lines
233-250). -/
def checkForbiddenJoins (sql : String) : Bool × String :=
  let detected := detectedTables sql
  if detected.length < 2 then (false, "")
  else checkForbiddenJoinsAux detected forbiddenJoinRules

/-- Parse `\d{4}-\d{2}-\d{2}` at the head of the list, returning the matched
date and the remainder. -/
def parseDate : List Char → Option (String × List Char)
  | a :: b :: c :: d :: '-' :: e :: f :: '-' :: g :: h :: rest =>
    if a.isDigit && b.isDigit && c.isDigit && d.isDigit && e.isDigit && f.isDigit
        && g.isDigit && h.isDigit then
      some (String.mk [a, b, c, d, '-', e, f, '-', g, h], rest)
    else none
  | _ => none

/-- Consume `\s+` (at least one whitespace character). -/
def ws1 : List Char → Option (List Char)
  | c :: t => if isPyWs c then some (t.dropWhile isPyWs) else none
  | [] => none

/-- One match of `between\s+'(\d{4}-\d{2}-\d{2})'\s+and\s+'(\d{4}-\d{2}-\d{2})'`
anchored at the head of the list, returning the two captured dates. -/
def betweenMatchAt (l : List Char) : Option (String × String) :=
  if "between".toList.isPrefixOf l then do
    let r1 ← ws1 (l.drop 7)
    match r1 with
    | '\'' :: r2 => do
      let (d1, r3) ← parseDate r2
      match r3 with
      | '\'' :: r4 => do
        let r5 ← ws1 r4
        if "and".toList.isPrefixOf r5 then do
          let r6 ← ws1 (r5.drop 3)
          match r6 with
          | '\'' :: r7 => do
            let (d2, r8) ← parseDate r7
            match r8 with
            | '\'' :: _ => some (d1, d2)
            | _ => none
          | _ => none
        else none
      | _ => none
    | _ => none
  else none

/-- All matches of the temporal `between ... and ...` pattern
(`re.findall` on sql_validator.py line 226).  The scanner tries every start
position; this coincides with `re.findall`'s non-overlapping scan because
two matches of this pattern cannot overlap (no second `between` can begin
inside a match). -/
def temporalPairsAll : List Char → List (String × String)
  | [] => []
  | c :: t =>
    (match betweenMatchAt (c :: t) with
     | some p => [p]
     | none => []) ++ temporalPairsAll t

/-- `EnhancedSQLValidator._check_temporal_sanity` (sql_validator.py lines
217-231): a `BETWEEN` range whose start date is lexicographically after its
end date fails. -/
def checkTemporalSanity (sql : String) : Bool × String :=
  let sqlLower := lowerS sql
  if strContains sqlLower "between" then
    match (temporalPairsAll sqlLower.toList).find? (fun p => pyStrLt p.2 p.1) with
    | some p =>
      (false, " Temporal Logic Error: Start date '" ++ p.1 ++ "' is after end date '" ++ p.2 ++ "'.")
    | none => (true, "")
  else (true, "")

/-! ## The validator state machine (`validate_sql`) -/

/-- A validation verdict: the `(valid, message)` pair returned by
`validate_sql`. -/
abbrev Verdict := Bool × String

/-- The `validation_cache` memo.  Python keys it by `hash(sql)`; the model
keys it by the SQL text itself (the hash is assumed injective). -/
abbrev VCache := List (String × Verdict)

/-- Memo lookup. -/
def vcacheFind (c : VCache) (s : String) : Option Verdict :=
  (c.find? (fun p => p.1 = s)).map (·.2)

/-- Memo store (`self.validation_cache[sql_hash] = result`): the new entry
shadows any older one. -/
def vcacheInsert (c : VCache) (s : String) (v : Verdict) : VCache := (s, v) :: c

/-- The validator's external collaborators: the database plan/probe call
(`None` = the statement planned successfully, `some e` = the database raised
error text `e`) and `_analyze_error`, whose suggestions depend on the live
schema and fuzzy matching. -/
structure ValidatorEnv where
  dbPlan : String → Option String
  analyzeError : String → String → String

/-- A trivial collaborator instantiation used by closed evaluations. -/
def nullEnv : ValidatorEnv := ⟨fun _ => none, fun e _ => e⟩

/-- The verdict computed by the check pipeline of `validate_sql` once the
empty-input and memo branches are passed (sql_validator.py lines 143-215),
together with whether the verdict is memoized (false exactly on the
temporal-sanity failure, lines 178-181, which returns without storing) and
whether the database plan call was reached. -/
def computeChecks (env : ValidatorEnv) (sql : String) (bypassForbiddenJoins : Bool) :
    Verdict × Bool × Bool :=
  if (validateColumnReferences sql).1 = false then
    ((false, (validateColumnReferences sql).2), true, false)
  else if dangerousOps.any (fun op => strContains (lowerS sql) op) then
    ((false, "Dangerous SQL operation detected"), true, false)
  else if (preValidateSql sql).1 = false then
    ((false, (preValidateSql sql).2), true, false)
  else if (!bypassForbiddenJoins) && (checkForbiddenJoins sql).1 then
    ((false, (checkForbiddenJoins sql).2), true, false)
  else if (checkTemporalSanity sql).1 = false then
    ((false, (checkTemporalSanity sql).2), false, false)
  else
    match env.dbPlan sql with
    | none => ((true, "SQL is valid and executable"), true, true)
    | some e => ((false, env.analyzeError e sql), true, true)

/-- The observable outcome of one `validate_sql` call. -/
structure VOut where
  verdict : Verdict
  fromCache : Bool
  dbCalled : Bool
  cacheAfter : VCache

/-- `EnhancedSQLValidator.validate_sql` (sql_validator.py lines 134-215):
empty input fails immediately; a memo hit returns the stored verdict; the
check pipeline otherwise runs and its verdict is memoized except on the
temporal-sanity failure path. -/
def validateSql (env : ValidatorEnv) (cache : VCache) (sql : String)
    (bypassForbiddenJoins : Bool := false) : VOut :=
  if isAllWs sql then ⟨(false, "Empty SQL query"), false, false, cache⟩
  else
    match vcacheFind cache sql with
    | some v => ⟨v, true, false, cache⟩
    | none =>
      let cc := computeChecks env sql bypassForbiddenJoins
      ⟨cc.1, false, cc.2.2, if cc.2.1 then vcacheInsert cache sql cc.1 else cache⟩

/-- The condition under which `validate_sql` ends in the temporal-sanity
failure branch (the one branch that does not memoize): every earlier check
passes and the temporal check fails. -/
def temporalRejectPath (sql : String) (bypassForbiddenJoins : Bool) : Bool :=
  (validateColumnReferences sql).1
    && !(dangerousOps.any (fun op => strContains (lowerS sql) op))
    && (preValidateSql sql).1
    && !((!bypassForbiddenJoins) && (checkForbiddenJoins sql).1)
    && !(checkTemporalSanity sql).1


/-! ## Helper lemmas about the validator -/

lemma two_mem_le_length {α : Type} {a b : α} {l : List α} (ha : a ∈ l) (hb : b ∈ l)
    (hne : a ≠ b) : 2 ≤ l.length := by
  induction l with
  | nil => cases ha
  | cons x t ih =>
    rcases List.mem_cons.mp ha with rfl | ha'
    · rcases List.mem_cons.mp hb with rfl | hb'
      · exact absurd rfl hne
      · have h1 : 1 ≤ t.length := List.length_pos.mpr (List.ne_nil_of_mem hb')
        simp only [List.length_cons]
        omega
    · have h1 : 1 ≤ t.length := List.length_pos.mpr (List.ne_nil_of_mem ha')
      simp only [List.length_cons]
      omega

lemma mem_detectedTables {sql t : String} :
    t ∈ detectedTables sql ↔ t ∈ allowedTables ∧ occursWord t.toList (lowerS sql).toList = true := by
  simp [detectedTables, List.mem_filter]

/-- If the master table is among the detected tables, no rule of the loop
fires. -/
lemma checkForbiddenJoinsAux_master {detected : List String}
    (hm : "vts_truck_master" ∈ detected) :
    ∀ rules, checkForbiddenJoinsAux detected rules = (false, "") := by
  intro rules
  induction rules with
  | nil => rfl
  | cons r rs ih =>
    unfold checkForbiddenJoinsAux
    have hmc : detected.contains "vts_truck_master" = true := List.elem_iff.mpr hm
    by_cases h : r.all (fun t => detected.contains t) = true
    · simp only [h, if_true, hmc, ih]
    · simp only [h, if_false, ih]
      simp [ih]

/-- If the master table is not detected and some rule of the list is a
subset of the detected tables, the loop rejects with a forbidden-join
message of one of its rules. -/
lemma checkForbiddenJoinsAux_fires {detected : List String}
    (hm : "vts_truck_master" ∉ detected) :
    ∀ rules (rule : List String), rule ∈ rules →
      rule.all (fun t => detected.contains t) = true →
      (checkForbiddenJoinsAux detected rules).1 = true ∧
        ∃ r ∈ rules, (checkForbiddenJoinsAux detected rules).2 = forbiddenJoinMsg r := by
  have hmc : detected.contains "vts_truck_master" = false := by
    rw [← Bool.not_eq_true]
    intro hcon
    exact hm (List.elem_iff.mp hcon)
  intro rules
  induction rules with
  | nil => intro rule h; cases h
  | cons r rs ih =>
    intro rule hmem hsub
    by_cases h : r.all (fun t => detected.contains t) = true
    · have hP : ∀ x ∈ r, x ∈ detected := by simpa using h
      have heq : checkForbiddenJoinsAux detected (r :: rs) = (true, forbiddenJoinMsg r) := by
        simp only [checkForbiddenJoinsAux]
        rw [if_pos (by simpa using h), if_neg (by simpa using hm)]
      rw [heq]
      exact ⟨rfl, r, List.mem_cons_self r rs, rfl⟩
    · have heq : checkForbiddenJoinsAux detected (r :: rs) = checkForbiddenJoinsAux detected rs := by
        simp only [checkForbiddenJoinsAux]
        rw [if_neg (by simpa using h)]
      rcases List.mem_cons.mp hmem with rfl | hmem'
      · exact absurd hsub h
      · obtain ⟨h1, rr, hrr, h2⟩ := ih rule hmem' hsub
        rw [heq]
        exact ⟨h1, rr, List.mem_cons_of_mem r hrr, h2⟩

/-- Any SQL that mentions `vts_truck_master` (word-bounded, lowered) is
never rejected by `_check_forbidden_joins`. -/
lemma checkForbiddenJoins_master_ok {sql : String}
    (h : occursWord "vts_truck_master".toList (lowerS sql).toList = true) :
    (checkForbiddenJoins sql).1 = false := by
  have hm : "vts_truck_master" ∈ detectedTables sql :=
    mem_detectedTables.mpr ⟨by decide, h⟩
  unfold checkForbiddenJoins
  by_cases hlen : (detectedTables sql).length < 2
  · simp [hlen]
  · simp [hlen, checkForbiddenJoinsAux_master hm]

/-- A forbidden pair both of whose tables occur (word-bounded) without the
master table makes `_check_forbidden_joins` reject with a forbidden-join
message. -/
lemma checkForbiddenJoins_fires {sql : String} {rule : List String}
    (h1 : rule ∈ forbiddenJoinRules)
    (h2 : ∀ t ∈ rule, occursWord t.toList (lowerS sql).toList = true)
    (hm : occursWord "vts_truck_master".toList (lowerS sql).toList = false) :
    (checkForbiddenJoins sql).1 = true ∧
      ∃ r ∈ forbiddenJoinRules, (checkForbiddenJoins sql).2 = forbiddenJoinMsg r := by
  have hrule : rule = ["alerts", "vts_alert_history"] ∨ rule = ["alerts", "tt_risk_score"] := by
    simpa [forbiddenJoinRules] using h1
  have hmem : "vts_truck_master" ∉ detectedTables sql := by
    intro hcon
    have := (mem_detectedTables.mp hcon).2
    rw [hm] at this
    cases this
  have hsub : rule.all (fun t => (detectedTables sql).contains t) = true := by
    rw [List.all_eq_true]
    intro t ht
    rw [List.elem_iff]
    rcases hrule with rfl | rfl <;>
      rcases (by simpa using ht : _ ∨ _) with rfl | rfl <;>
        exact mem_detectedTables.mpr ⟨by decide, h2 _ (by simp)⟩
  have hlen : ¬ (detectedTables sql).length < 2 := by
    rcases hrule with rfl | rfl
    · have ha : "alerts" ∈ detectedTables sql :=
        mem_detectedTables.mpr ⟨by decide, h2 _ (by simp)⟩
      have hb : "vts_alert_history" ∈ detectedTables sql :=
        mem_detectedTables.mpr ⟨by decide, h2 _ (by simp)⟩
      have := two_mem_le_length ha hb (by decide)
      omega
    · have ha : "alerts" ∈ detectedTables sql :=
        mem_detectedTables.mpr ⟨by decide, h2 _ (by simp)⟩
      have hb : "tt_risk_score" ∈ detectedTables sql :=
        mem_detectedTables.mpr ⟨by decide, h2 _ (by simp)⟩
      have := two_mem_le_length ha hb (by decide)
      omega
  unfold checkForbiddenJoins
  simp only [hlen, if_false]
  exact checkForbiddenJoinsAux_fires hmem forbiddenJoinRules rule h1 hsub

lemma vcacheFind_insert (c : VCache) (s : String) (v : Verdict) :
    vcacheFind (vcacheInsert c s v) s = some v := by
  simp [vcacheFind, vcacheInsert, List.find?]

/-- The check pipeline memoizes its verdict exactly outside the
temporal-sanity failure path. -/
lemma computeChecks_shouldCache (env : ValidatorEnv) (sql : String) (b : Bool) :
    (computeChecks env sql b).2.1 = !(temporalRejectPath sql b) := by
  unfold computeChecks temporalRejectPath
  split_ifs with h1 h2 h3 h4 h5
  · simp [h1]
  · simp [h1, h2]
  · simp [h1, h2, h3]
  · simp [h1, h2, h3, h4]
  · simp [h1, h2, h3, h4, h5]
  · cases hdb : env.dbPlan sql <;> simp_all

lemma validateSql_ws {env : ValidatorEnv} {cache : VCache} {sql : String} {b : Bool}
    (hws : isAllWs sql = true) :
    validateSql env cache sql b = ⟨(false, "Empty SQL query"), false, false, cache⟩ := by
  unfold validateSql
  rw [if_pos hws]

lemma validateSql_cached {env : ValidatorEnv} {cache : VCache} {sql : String} {b : Bool}
    {v : Verdict} (hws : isAllWs sql = false) (h : vcacheFind cache sql = some v) :
    validateSql env cache sql b = ⟨v, true, false, cache⟩ := by
  unfold validateSql
  rw [if_neg (by simp [hws]), h]

lemma validateSql_eq_compute {env : ValidatorEnv} {cache : VCache} {sql : String} {b : Bool}
    (hws : isAllWs sql = false) (hcache : vcacheFind cache sql = none) :
    validateSql env cache sql b =
      ⟨(computeChecks env sql b).1, false, (computeChecks env sql b).2.2,
        if (computeChecks env sql b).2.1 then
          vcacheInsert cache sql (computeChecks env sql b).1
        else cache⟩ := by
  unfold validateSql
  rw [if_neg (by simp [hws]), hcache]

/-! ## Claim theorems about the validator -/

/-- C1: for every SQL string in which both tables of a forbidden pair occur
(word-bounded, as `_check_forbidden_joins` detects them) and
`vts_truck_master` does not occur, `validate_sql` returns `valid = false`
with a forbidden-join message and never reaches the database plan call,
assuming the query is non-empty, not answered from the memo, and passes the
earlier column-reference, dangerous-keyword and pre-validation checks; and
for any SQL in which `vts_truck_master` also occurs, the forbidden-join
check does not reject. -/
theorem c1_forbidden_join_enforced (env : ValidatorEnv) (cache : VCache) (sql : String)
    (rule : List String)
    (hrule : rule ∈ forbiddenJoinRules)
    (hws : isAllWs sql = false)
    (hcache : vcacheFind cache sql = none)
    (hcol : (validateColumnReferences sql).1 = true)
    (hdang : dangerousOps.any (fun op => strContains (lowerS sql) op) = false)
    (hpre : (preValidateSql sql).1 = true)
    (hocc : ∀ t ∈ rule, occursWord t.toList (lowerS sql).toList = true)
    (hnomaster : occursWord "vts_truck_master".toList (lowerS sql).toList = false) :
    ((validateSql env cache sql).verdict.1 = false ∧
      (∃ r ∈ forbiddenJoinRules, (validateSql env cache sql).verdict.2 = forbiddenJoinMsg r) ∧
      (validateSql env cache sql).dbCalled = false) ∧
    (∀ sql2 : String, occursWord "vts_truck_master".toList (lowerS sql2).toList = true →
      (checkForbiddenJoins sql2).1 = false) := by
  obtain ⟨hf1, r, hr, hf2⟩ := checkForbiddenJoins_fires hrule hocc hnomaster
  have hcc : computeChecks env sql false = ((false, (checkForbiddenJoins sql).2), true, false) := by
    unfold computeChecks
    rw [if_neg (by simp [hcol]), if_neg (by simp [hdang]), if_neg (by simp [hpre]),
      if_pos (by simp [hf1])]
  refine ⟨?_, fun sql2 h2 => checkForbiddenJoins_master_ok h2⟩
  rw [validateSql_eq_compute hws hcache, hcc]
  exact ⟨rfl, ⟨r, hr, hf2⟩, rfl⟩

/-- C1 witness: a concrete query joining `alerts` and `vts_alert_history`
without `vts_truck_master` is rejected by the forbidden-join check before
any database call. -/
theorem c1_forbidden_join_enforced_witness :
    (((validateSql nullEnv [] "SELECT * FROM alerts JOIN vts_alert_history ON 1=1").verdict.1
        = false ∧
      (∃ r ∈ forbiddenJoinRules,
        (validateSql nullEnv [] "SELECT * FROM alerts JOIN vts_alert_history ON 1=1").verdict.2
          = forbiddenJoinMsg r) ∧
      (validateSql nullEnv [] "SELECT * FROM alerts JOIN vts_alert_history ON 1=1").dbCalled
        = false) ∧
    (∀ sql2 : String, occursWord "vts_truck_master".toList (lowerS sql2).toList = true →
      (checkForbiddenJoins sql2).1 = false)) :=
  c1_forbidden_join_enforced nullEnv [] "SELECT * FROM alerts JOIN vts_alert_history ON 1=1"
    ["alerts", "vts_alert_history"] (by decide) (by decide) rfl (by decide) (by decide)
    (by decide) (by decide) (by decide)

/-- C7, counterexample to the claim as stated: a query failing the
temporal-sanity check is not memoized, so the second identical call is not
answered from the hash-keyed memo (it re-runs the checks). -/
theorem c7_counterexample :
    (validateSql nullEnv []
        "select * from alerts where created_at between '2024-05-05' and '2023-01-01'").verdict.1
      = false ∧
    (validateSql nullEnv
        (validateSql nullEnv []
          "select * from alerts where created_at between '2024-05-05' and '2023-01-01'").cacheAfter
        "select * from alerts where created_at between '2024-05-05' and '2023-01-01'").fromCache
      = false :=
  ⟨by decide, by decide⟩

/-- C7, amended: a repeated `validate_sql` call on the same SQL always
returns the same verdict, and it is answered from the hash-keyed memo
except when the SQL is empty/whitespace or ends in the temporal-sanity
failure path, which returns without storing to the memo. -/
theorem c7_validation_memo (env : ValidatorEnv) (cache : VCache) (sql : String) (b : Bool) :
    (validateSql env (validateSql env cache sql b).cacheAfter sql b).verdict
        = (validateSql env cache sql b).verdict ∧
      ((validateSql env (validateSql env cache sql b).cacheAfter sql b).fromCache = true ∨
        isAllWs sql = true ∨ temporalRejectPath sql b = true) := by
  by_cases hws : isAllWs sql = true
  · rw [validateSql_ws hws]
    rw [validateSql_ws hws]
    exact ⟨rfl, Or.inr (Or.inl hws)⟩
  · have hws' : isAllWs sql = false := by simpa using hws
    cases hfind : vcacheFind cache sql with
    | some v =>
      rw [validateSql_cached hws' hfind]
      rw [validateSql_cached hws' hfind]
      exact ⟨rfl, Or.inl rfl⟩
    | none =>
      rw [validateSql_eq_compute hws' hfind]
      by_cases hsc : (computeChecks env sql b).2.1 = true
      · rw [if_pos hsc]
        rw [validateSql_cached hws' (vcacheFind_insert cache sql (computeChecks env sql b).1)]
        exact ⟨rfl, Or.inl rfl⟩
      · rw [if_neg hsc]
        rw [validateSql_eq_compute hws' hfind]
        refine ⟨rfl, Or.inr (Or.inr ?_)⟩
        have h1 := computeChecks_shouldCache env sql b
        have h2 : (computeChecks env sql b).2.1 = false := by simpa using hsc
        rw [h2] at h1
        cases htp : temporalRejectPath sql b
        · rw [htp] at h1
          cases h1
        · rfl

/-- C8, counterexample to the claim as stated: a mutating statement whose
text also word-matches an entry of the static alias table is rejected by
the earlier column-reference check, so the verdict's message is not
"Dangerous SQL operation detected". -/
theorem c8_counterexample :
    (validateSql nullEnv [] "UPDATE vts_truck_master SET blacklisted = 'Y'").verdict
        = (false, "Invalid column reference: 'blacklisted' -> use 'whether_truck_blacklisted'") ∧
      (validateSql nullEnv [] "UPDATE vts_truck_master SET blacklisted = 'Y'").verdict.2
        ≠ "Dangerous SQL operation detected" :=
  ⟨by decide, by decide⟩

/-- C8, amended: every SQL whose lowered text contains a mutating keyword as
a substring is rejected (`valid = false`) without the statement ever being
sent to the database, and the message is "Dangerous SQL operation detected"
whenever the earlier column-reference check passes (a first-time,
non-empty query). -/
theorem c8_dangerous_rejected (env : ValidatorEnv) (cache : VCache) (sql : String) (b : Bool)
    (hws : isAllWs sql = false)
    (hcache : vcacheFind cache sql = none)
    (hdang : dangerousOps.any (fun op => strContains (lowerS sql) op) = true) :
    (validateSql env cache sql b).verdict.1 = false ∧
      (validateSql env cache sql b).dbCalled = false ∧
      ((validateColumnReferences sql).1 = true →
        (validateSql env cache sql b).verdict.2 = "Dangerous SQL operation detected") := by
  rw [validateSql_eq_compute hws hcache]
  by_cases hcol : (validateColumnReferences sql).1 = true
  · have hcc : computeChecks env sql b = ((false, "Dangerous SQL operation detected"), true, false) := by
      unfold computeChecks
      rw [if_neg (by simp [hcol]), if_pos hdang]
    rw [hcc]
    exact ⟨rfl, rfl, fun _ => rfl⟩
  · have hcol' : (validateColumnReferences sql).1 = false := by simpa using hcol
    have hcc : computeChecks env sql b =
        ((false, (validateColumnReferences sql).2), true, false) := by
      unfold computeChecks
      rw [if_pos hcol']
    rw [hcc]
    exact ⟨rfl, rfl, fun hc => absurd hc hcol⟩

/-- C8 witness: a concrete `DROP` statement is rejected with the dangerous
message and never reaches the database. -/
theorem c8_dangerous_rejected_witness :
    (validateSql nullEnv [] "DROP TABLE alerts" false).verdict.1 = false ∧
      (validateSql nullEnv [] "DROP TABLE alerts" false).dbCalled = false ∧
      ((validateColumnReferences "DROP TABLE alerts").1 = true →
        (validateSql nullEnv [] "DROP TABLE alerts" false).verdict.2
          = "Dangerous SQL operation detected") :=
  c8_dangerous_rejected nullEnv [] "DROP TABLE alerts" false (by decide) rfl (by decide)

/-- C10: the dangerous-operation check is a substring test on the whole
lowered SQL, so the purely read-only statement
`SELECT vot.updated_at FROM vts_ongoing_trips vot` - which contains
"update" only inside the identifier `updated_at` and not as a standalone
word - is rejected with "Dangerous SQL operation detected" and never sent
to the database, whatever the database collaborator would answer. -/
theorem c10_readonly_select_rejected (env : ValidatorEnv) :
    (validateSql env [] "SELECT vot.updated_at FROM vts_ongoing_trips vot").verdict
        = (false, "Dangerous SQL operation detected") ∧
      (validateSql env [] "SELECT vot.updated_at FROM vts_ongoing_trips vot").dbCalled = false ∧
      occursWord "update".toList
        (lowerS "SELECT vot.updated_at FROM vts_ongoing_trips vot").toList = false :=
  ⟨rfl, rfl, rfl⟩

/-! ## The generation orchestrator (`AdaptiveLLMGenerator.generate`,
sql_generator.py lines 55-129)

The LLM backend (`ollama.generate`), the output post-processing
(`_clean_sql`) and the validator are collaborators of the loop; they are
modelled as components of `LLMEnv`.  `llm model i = none` models the call
for attempt `i` (0-based) of `model` raising an exception; `some text`
models a returned response.  Executions in which something other than the
guarded block raises (for example the stats bookkeeping on a model missing
from `model_stats`) terminate by exception and return nothing, so they are
outside the scope of statements about `generate`'s returned value; note an
exception can only decrease the number of LLM calls made. -/
structure LLMEnv where
  llm : String → Nat → Option String
  clean : String → String
  validate : String → Bool × String

/-- The default model list of `AdaptiveLLMGenerator.__init__`
(sql_generator.py line 35). -/
def defaultModels : List String :=
  ["mannix/defog-llama3-sqlcoder-8b:latest", "llama3.1:8b", "deepseek-coder-v2"]

/-- The sentinel SQL returned when all models fail (sql_generator.py
line 129). -/
def failureSentinel : String :=
  "SELECT 'LLM generation failed after trying all models' AS error;"

/-- The candidate-model list computed at sql_generator.py lines 62-76 from
`model_name` and `allow_fallback`. -/
def modelsToTry (models : List String) (modelName : Option String) (allowFallback : Bool) :
    List String :=
  match modelName with
  | some m => if allowFallback then m :: models.filter (fun x => x ≠ m) else [m]
  | none => models

/-- Outcome of the retry loop for one model: the accepted SQL if an attempt
validated, the final value of the `generated_sql` variable, and the number
of LLM invocations made. -/
structure AttemptOut where
  successSql : Option String
  lastSql : String
  calls : Nat

/-- The `for attempt in range(self.max_retries)` loop of `generate`
(sql_generator.py lines 90-121) for one model: `i` is the attempt index,
`r` the remaining attempts, `g` the current `generated_sql`.  A raising
call (`llm = none`) leaves `generated_sql` unchanged; a response is
cleaned, validated, and returned on success. -/
def runAttempts (env : LLMEnv) (model : String) : Nat → Nat → String → AttemptOut
  | _, 0, g => ⟨none, g, 0⟩
  | i, r + 1, g =>
    match env.llm model i with
    | none =>
      let rest := runAttempts env model (i + 1) r g
      ⟨rest.successSql, rest.lastSql, rest.calls + 1⟩
    | some resp =>
      let g' := env.clean resp
      if (env.validate g').1 then ⟨some g', g', 1⟩
      else
        let rest := runAttempts env model (i + 1) r g'
        ⟨rest.successSql, rest.lastSql, rest.calls + 1⟩

/-- The observable result of one `generate` call: the returned
`(sql, success, model_used)` triple, plus the total number of LLM
invocations and the final model's final `generated_sql` (which line 129
falls back on). -/
structure GenResult where
  sql : String
  success : Bool
  modelUsed : String
  calls : Nat
  lastGen : String

/-- The `for model in models_to_try` loop of `generate` (sql_generator.py
lines 81-129): per model, `generated_sql` restarts at `""` and up to `R`
attempts run; the first validated SQL returns immediately; after the last
model fails, line 129 returns `generated_sql or failureSentinel` with
`success = False`.  (`models_to_try` is never empty - see `modelsToTry` -
so the `[]` case is unreachable from `generate`.) -/
def generateLoop (env : LLMEnv) (R : Nat) : List String → String → GenResult
  | [], cur => ⟨failureSentinel, false, cur, 0, ""⟩
  | m :: ms, _ =>
    let a := runAttempts env m 0 R ""
    match a.successSql with
    | some sql => ⟨sql, true, m, a.calls, a.lastSql⟩
    | none =>
      match ms with
      | [] => ⟨if a.lastSql ≠ "" then a.lastSql else failureSentinel, false, m, a.calls, a.lastSql⟩
      | m2 :: ms2 =>
        let rest := generateLoop env R (m2 :: ms2) m
        ⟨rest.sql, rest.success, rest.modelUsed, a.calls + rest.calls, rest.lastGen⟩

/-- `AdaptiveLLMGenerator.generate` (sql_generator.py lines 55-129), with
`R = max_retries` and `models` the instance's model list (`current_model`
starts at `models[0]`, set in `__init__`). -/
def generate (env : LLMEnv) (models : List String) (R : Nat) (modelName : Option String)
    (allowFallback : Bool) : GenResult :=
  generateLoop env R (modelsToTry models modelName allowFallback) (models.headD "")

/-- Attempt `k` of `model` fails: the LLM call raised, or the cleaned
response failed validation. -/
def attemptFailed (env : LLMEnv) (model : String) (k : Nat) : Prop :=
  match env.llm model k with
  | none => True
  | some resp => (env.validate (env.clean resp)).1 = false

lemma runAttempts_calls_le (env : LLMEnv) (model : String) :
    ∀ (r i : Nat) (g : String), (runAttempts env model i r g).calls ≤ r := by
  intro r
  induction r with
  | zero => intro i g; simp [runAttempts]
  | succ r ih =>
    intro i g
    unfold runAttempts
    cases h : env.llm model i with
    | none =>
      have := ih (i + 1) g
      simp only []
      omega
    | some resp =>
      by_cases hv : (env.validate (env.clean resp)).1 = true
      · simp only [hv, if_true]
        omega
      · have hv' : (env.validate (env.clean resp)).1 = false := by simpa using hv
        have := ih (i + 1) (env.clean resp)
        simp only [hv', Bool.false_eq_true, if_false]
        omega

lemma runAttempts_fail_calls (env : LLMEnv) (model : String) :
    ∀ (r i : Nat) (g : String), (runAttempts env model i r g).successSql = none →
      (runAttempts env model i r g).calls = r := by
  intro r
  induction r with
  | zero => intro i g _; simp [runAttempts]
  | succ r ih =>
    intro i g hfail
    unfold runAttempts at hfail ⊢
    cases h : env.llm model i with
    | none =>
      rw [h] at hfail
      have := ih (i + 1) g (by simpa using hfail)
      simp only []
      omega
    | some resp =>
      rw [h] at hfail
      simp only [] at hfail
      by_cases hv : (env.validate (env.clean resp)).1 = true
      · rw [if_pos hv] at hfail
        cases hfail
      · have hv' : (env.validate (env.clean resp)).1 = false := by simpa using hv
        rw [if_neg hv] at hfail
        have := ih (i + 1) (env.clean resp) (by simpa using hfail)
        simp only [hv', Bool.false_eq_true, if_false]
        omega

lemma runAttempts_fail_attempts (env : LLMEnv) (model : String) :
    ∀ (r i : Nat) (g : String), (runAttempts env model i r g).successSql = none →
      ∀ j < r, attemptFailed env model (i + j) := by
  intro r
  induction r with
  | zero => intro i g _ j hj; omega
  | succ r ih =>
    intro i g hfail j hj
    unfold runAttempts at hfail
    cases h : env.llm model i with
    | none =>
      rw [h] at hfail
      rcases Nat.eq_zero_or_pos j with rfl | hjpos
      · simp [attemptFailed, h]
      · have := ih (i + 1) g (by simpa using hfail) (j - 1) (by omega)
        have heq : i + 1 + (j - 1) = i + j := by omega
        rwa [heq] at this
    | some resp =>
      rw [h] at hfail
      simp only [] at hfail
      by_cases hv : (env.validate (env.clean resp)).1 = true
      · rw [if_pos hv] at hfail
        cases hfail
      · rw [if_neg hv] at hfail
        rcases Nat.eq_zero_or_pos j with rfl | hjpos
        · simpa [attemptFailed, h] using hv
        · have := ih (i + 1) (env.clean resp) (by simpa using hfail) (j - 1) (by omega)
          have heq : i + 1 + (j - 1) = i + j := by omega
          rwa [heq] at this

lemma runAttempts_fail_lastSql (env : LLMEnv) (model : String) :
    ∀ (r i : Nat) (g : String), (runAttempts env model i r g).successSql = none →
      (runAttempts env model i r g).lastSql = g ∨
        (env.validate (runAttempts env model i r g).lastSql).1 = false := by
  intro r
  induction r with
  | zero => intro i g _; left; simp [runAttempts]
  | succ r ih =>
    intro i g hfail
    unfold runAttempts at hfail ⊢
    cases h : env.llm model i with
    | none =>
      rw [h] at hfail
      have := ih (i + 1) g (by simpa using hfail)
      simpa using this
    | some resp =>
      rw [h] at hfail
      simp only [] at hfail
      by_cases hv : (env.validate (env.clean resp)).1 = true
      · rw [if_pos hv] at hfail
        cases hfail
      · have hv' : (env.validate (env.clean resp)).1 = false := by simpa using hv
        rw [if_neg hv] at hfail
        have := ih (i + 1) (env.clean resp) (by simpa using hfail)
        simp only [hv', Bool.false_eq_true, if_false]
        rcases this with heq | hval
        · right
          rw [heq]
          exact hv'
        · right
          exact hval

lemma generateLoop_success_eq {env : LLMEnv} {R : Nat} {m : String} {ms : List String}
    {cur sql : String} (hs : (runAttempts env m 0 R "").successSql = some sql) :
    generateLoop env R (m :: ms) cur =
      ⟨sql, true, m, (runAttempts env m 0 R "").calls, (runAttempts env m 0 R "").lastSql⟩ := by
  unfold generateLoop
  simp only [hs]

lemma generateLoop_lastfail_eq {env : LLMEnv} {R : Nat} {m : String} {cur : String}
    (hs : (runAttempts env m 0 R "").successSql = none) :
    generateLoop env R [m] cur =
      ⟨if (runAttempts env m 0 R "").lastSql ≠ "" then (runAttempts env m 0 R "").lastSql
        else failureSentinel,
        false, m, (runAttempts env m 0 R "").calls, (runAttempts env m 0 R "").lastSql⟩ := by
  unfold generateLoop
  simp only [hs]

lemma generateLoop_stepfail_eq {env : LLMEnv} {R : Nat} {m m2 : String} {ms2 : List String}
    {cur : String} (hs : (runAttempts env m 0 R "").successSql = none) :
    generateLoop env R (m :: m2 :: ms2) cur =
      ⟨(generateLoop env R (m2 :: ms2) m).sql, (generateLoop env R (m2 :: ms2) m).success,
        (generateLoop env R (m2 :: ms2) m).modelUsed,
        (runAttempts env m 0 R "").calls + (generateLoop env R (m2 :: ms2) m).calls,
        (generateLoop env R (m2 :: ms2) m).lastGen⟩ := by
  conv_lhs => unfold generateLoop
  simp only [hs]

lemma generateLoop_calls_le (env : LLMEnv) (R : Nat) :
    ∀ (models : List String) (cur : String),
      (generateLoop env R models cur).calls ≤ models.length * R := by
  intro models
  induction models with
  | nil => intro cur; simp [generateLoop]
  | cons m ms ih =>
    intro cur
    have ha := runAttempts_calls_le env m R 0 ""
    cases hs : (runAttempts env m 0 R "").successSql with
    | some sql =>
      rw [generateLoop_success_eq hs]
      simp only [List.length_cons]
      calc (runAttempts env m 0 R "").calls ≤ R := ha
        _ ≤ (ms.length + 1) * R := by
            have hh : R ≤ ms.length * R + R := by omega
            calc R ≤ ms.length * R + R := hh
              _ = (ms.length + 1) * R := by ring
    | none =>
      cases ms with
      | nil =>
        rw [generateLoop_lastfail_eq hs]
        simpa using ha
      | cons m2 ms2 =>
        rw [generateLoop_stepfail_eq hs]
        have h2 := ih m
        simp only [List.length_cons] at h2 ⊢
        have : (runAttempts env m 0 R "").calls + (generateLoop env R (m2 :: ms2) m).calls
            ≤ R + (ms2.length + 1) * R := by omega
        calc (runAttempts env m 0 R "").calls + (generateLoop env R (m2 :: ms2) m).calls
            ≤ R + (ms2.length + 1) * R := this
          _ = (ms2.length + 1 + 1) * R := by ring

lemma generateLoop_fail (env : LLMEnv) (R : Nat) :
    ∀ (models : List String) (cur : String),
      (generateLoop env R models cur).success = false →
      (generateLoop env R models cur).calls = models.length * R ∧
        ∀ m ∈ models, ∀ j < R, attemptFailed env m j := by
  intro models
  induction models with
  | nil => intro cur _; exact ⟨by simp [generateLoop], by simp⟩
  | cons m ms ih =>
    intro cur hfail
    cases hs : (runAttempts env m 0 R "").successSql with
    | some sql =>
      rw [generateLoop_success_eq hs] at hfail
      cases hfail
    | none =>
      have hm : ∀ j < R, attemptFailed env m j := by
        intro j hj
        have := runAttempts_fail_attempts env m R 0 "" hs j hj
        simpa using this
      have hc := runAttempts_fail_calls env m R 0 "" hs
      cases ms with
      | nil =>
        rw [generateLoop_lastfail_eq hs]
        refine ⟨by simpa using hc, ?_⟩
        intro m' hm' j hj
        rcases List.mem_singleton.mp hm' with rfl
        exact hm j hj
      | cons m2 ms2 =>
        rw [generateLoop_stepfail_eq hs] at hfail ⊢
        obtain ⟨hc2, hrest⟩ := ih m hfail
        constructor
        · simp only [List.length_cons] at hc2 ⊢
          rw [hc, hc2]
          ring
        · intro m' hm' j hj
          rcases List.mem_cons.mp hm' with rfl | hm''
          · exact hm j hj
          · exact hrest m' hm'' j hj

lemma generateLoop_fail_sql (env : LLMEnv) (R : Nat) :
    ∀ (models : List String) (cur : String), models ≠ [] →
      (generateLoop env R models cur).success = false →
      ((generateLoop env R models cur).lastGen = "" ∧
          (generateLoop env R models cur).sql = failureSentinel) ∨
        ((generateLoop env R models cur).sql = (generateLoop env R models cur).lastGen ∧
          (generateLoop env R models cur).lastGen ≠ "" ∧
          (env.validate (generateLoop env R models cur).sql).1 = false) := by
  intro models
  induction models with
  | nil => intro cur h; exact absurd rfl h
  | cons m ms ih =>
    intro cur _ hfail
    cases hs : (runAttempts env m 0 R "").successSql with
    | some sql =>
      rw [generateLoop_success_eq hs] at hfail
      cases hfail
    | none =>
      cases ms with
      | nil =>
        rw [generateLoop_lastfail_eq hs]
        have hlast := runAttempts_fail_lastSql env m R 0 "" hs
        by_cases hempty : (runAttempts env m 0 R "").lastSql = ""
        · left
          constructor
          · exact hempty
          · simp [hempty]
        · right
          refine ⟨by simp [hempty], hempty, ?_⟩
          rcases hlast with heq | hval
          · exact absurd heq hempty
          · simpa [hempty] using hval
      | cons m2 ms2 =>
        rw [generateLoop_stepfail_eq hs] at hfail ⊢
        exact ih m (by simp) hfail

/-- A concrete LLM environment in which every attempt produces SQL that
fails validation: used by closed instances of the orchestrator claims. -/
def envAllFail : LLMEnv :=
  ⟨fun _ _ => some "SELECT bad", fun s => s, fun _ => (false, "invalid")⟩

/-- C2: one `generate` call invokes the LLM at most
`len(models_to_try) * max_retries` times, and it returns `success = false`
only after exactly that many invocations, every one of which either raised
or produced SQL that failed validation. -/
theorem c2_retry_bound (env : LLMEnv) (models : List String) (R : Nat)
    (modelName : Option String) (allowFallback : Bool) :
    (generate env models R modelName allowFallback).calls
        ≤ (modelsToTry models modelName allowFallback).length * R ∧
      ((generate env models R modelName allowFallback).success = false →
        (generate env models R modelName allowFallback).calls
            = (modelsToTry models modelName allowFallback).length * R ∧
          ∀ m ∈ modelsToTry models modelName allowFallback, ∀ j < R,
            attemptFailed env m j) :=
  ⟨generateLoop_calls_le env R _ _, fun h => generateLoop_fail env R _ _ h⟩

/-- C2 witness: with two models, two retries and every attempt failing
validation, `generate` returns `success = false` after exactly four LLM
invocations, all of which failed. -/
theorem c2_retry_bound_witness :
    (generate envAllFail ["m1", "m2"] 2 none true).success = false ∧
      (generate envAllFail ["m1", "m2"] 2 none true).calls
          = (modelsToTry ["m1", "m2"] none true).length * 2 ∧
      ∀ m ∈ modelsToTry ["m1", "m2"] none true, ∀ j < 2, attemptFailed envAllFail m j := by
  have h := (c2_retry_bound envAllFail ["m1", "m2"] 2 none true).2 (by decide)
  exact ⟨by decide, h.1, h.2⟩

/-- C6 counterexample: on total failure `generate` does not return the
sentinel string when the final model's last cleaned SQL is non-empty - it
returns that (invalid) SQL instead (`generated_sql or sentinel`,
sql_generator.py line 129). -/
theorem c6_counterexample :
    (generate envAllFail ["m1"] 1 none true).success = false ∧
      (generate envAllFail ["m1"] 1 none true).sql = "SELECT bad" ∧
      (generate envAllFail ["m1"] 1 none true).sql ≠ failureSentinel :=
  ⟨by decide, by decide, by decide⟩

/-- C6, amended: on total failure `generate` returns `success = false`
together with either the sentinel failure SQL - exactly when the final
model's last cleaned SQL is empty - or that last cleaned SQL itself, which
is non-empty and failed validation. -/
theorem c6_failure_sql (env : LLMEnv) (models : List String) (R : Nat)
    (modelName : Option String) (allowFallback : Bool)
    (h : (generate env models R modelName allowFallback).success = false) :
    ((generate env models R modelName allowFallback).lastGen = "" ∧
        (generate env models R modelName allowFallback).sql = failureSentinel) ∨
      ((generate env models R modelName allowFallback).sql
            = (generate env models R modelName allowFallback).lastGen ∧
        (generate env models R modelName allowFallback).lastGen ≠ "" ∧
        (env.validate (generate env models R modelName allowFallback).sql).1 = false) := by
  unfold generate at h ⊢
  cases hmt : modelsToTry models modelName allowFallback with
  | nil =>
    left
    exact ⟨rfl, rfl⟩
  | cons m ms =>
    rw [hmt] at h
    exact generateLoop_fail_sql env R (m :: ms) (models.headD "") (by simp) h

/-- C6 witness: a concrete run in which the last attempt produced non-empty
invalid SQL, exercising the amended conclusion. -/
theorem c6_failure_sql_witness :
    ((generate envAllFail ["m1"] 1 none true).lastGen = "" ∧
        (generate envAllFail ["m1"] 1 none true).sql = failureSentinel) ∨
      ((generate envAllFail ["m1"] 1 none true).sql
            = (generate envAllFail ["m1"] 1 none true).lastGen ∧
        (generate envAllFail ["m1"] 1 none true).lastGen ≠ "" ∧
        (envAllFail.validate (generate envAllFail ["m1"] 1 none true).sql).1 = false) :=
  c6_failure_sql envAllFail ["m1"] 1 none true (by decide)

/-! ## Case-insensitive literal substitution (`re.sub(re.escape(old), new,
sql, flags=re.I)`)

The scan is Python's: left to right, at each position the literal pattern
is matched case-insensitively; a match emits the replacement and continues
after the matched text.  `fuel` bounds the recursion; callers pass the text
length, which suffices because every step consumes at least one character
(the pattern is non-empty in every use: extracted parameters are non-empty
strings). -/

/-- `old` matches the head of `s` case-insensitively (ASCII lowering). -/
def ciPrefixL : List Char → List Char → Bool
  | [], _ => true
  | _ :: _, [] => false
  | a :: as, b :: bs => (a.toLower = b.toLower) && ciPrefixL as bs

/-- A case-insensitive occurrence of `w` somewhere in `s`. -/
def occursCIL (w : List Char) : List Char → Bool
  | [] => w.isEmpty
  | c :: t => ciPrefixL w (c :: t) || occursCIL w t

/-- An exact occurrence of `w` somewhere in `s` (Python's `w in s`). -/
def occursL (w : List Char) : List Char → Bool
  | [] => w.isEmpty
  | c :: t => w.isPrefixOf (c :: t) || occursL w t

/-- Replace every case-insensitive occurrence of `old` by `new`, scanning
left to right (`re.sub` with a literal pattern and `re.I`). -/
def substCI (old new : List Char) : Nat → List Char → List Char
  | 0, s => s
  | _ + 1, [] => []
  | fuel + 1, c :: t =>
    if ciPrefixL old (c :: t) && !old.isEmpty then
      new ++ substCI old new fuel ((c :: t).drop old.length)
    else c :: substCI old new fuel t

/-! ## Parameter extraction (`EnhancedSQLRAGSystem._extract_all_parameters`,
rag_system.py lines 233-241) -/

/-- One match of `re.findall(r'\b([A-Z]{2}\d{2}[A-Z0-9]{2,6})\b', text, re.I)`
anchored at the head (the left boundary is checked by the caller): two
letters, two digits, then greedily two to six alphanumerics followed by a
right word boundary.  Returns the match and the remaining text.  When more
than six alphanumerics follow, every allowed length leaves an alphanumeric
right after the match, so the boundary fails for all of them; a following
underscore likewise defeats the boundary. -/
def vehicleIdAt (l : List Char) : Option (List Char × List Char) :=
  match l with
  | a :: b :: c :: d :: rest =>
    if a.isAlpha && b.isAlpha && c.isDigit && d.isDigit then
      let run := rest.takeWhile Char.isAlphanum
      if run.length < 2 || 6 < run.length then none
      else
        match rest.drop run.length with
        | '_' :: _ => none
        | after => some (a :: b :: c :: d :: run, after)
    else none
  | _ => none

/-- The non-overlapping scan of the vehicle-id `findall`; `fuel` bounds the
recursion (the caller passes the text length, which suffices because every
step consumes at least one character). -/
def findVehicleIdsAux : Nat → Option Char → List Char → List String
  | 0, _, _ => []
  | fuel + 1, prev, l =>
    match l with
    | [] => []
    | c :: t =>
      match (if boundaryBefore prev then vehicleIdAt (c :: t) else none) with
      | some (m, rest) => String.mk m :: findVehicleIdsAux fuel (some (m.getLastD 'a')) rest
      | none => findVehicleIdsAux fuel (some c) t

/-- All vehicle-id parameters of the text. -/
def findVehicleIds (text : String) : List String :=
  findVehicleIdsAux text.toList.length none text.toList

/-- One match of `(?:last|top|at least|>\s*)\s*(\d+)` anchored at the head:
one of the keyword alternatives, optional whitespace, then a captured digit
run.  Returns the captured digits and the remaining text. -/
def numAfterKeyAt (l : List Char) : Option (List Char × List Char) :=
  let tryTail : List Char → Option (List Char × List Char) := fun after =>
    let after2 := after.dropWhile isPyWs
    let digits := after2.takeWhile Char.isDigit
    if digits.isEmpty then none else some (digits, after2.drop digits.length)
  if "last".toList.isPrefixOf l then tryTail (l.drop 4)
  else if "top".toList.isPrefixOf l then tryTail (l.drop 3)
  else if "at least".toList.isPrefixOf l then tryTail (l.drop 8)
  else
    match l with
    | '>' :: t => tryTail t
    | _ => none

/-- Non-overlapping scan of the keyword-number `findall` (applied by the
source to the lowered text). -/
def findKeyedNumsAux : Nat → List Char → List String
  | 0, _ => []
  | fuel + 1, l =>
    match l with
    | [] => []
    | _ :: t =>
      match numAfterKeyAt l with
      | some (digits, rest) => String.mk digits :: findKeyedNumsAux fuel rest
      | none => findKeyedNumsAux fuel t

/-- All keyword-anchored number parameters of the lowered text. -/
def findKeyedNums (text : String) : List String :=
  findKeyedNumsAux (lowerS text).toList.length (lowerS text).toList

/-- Non-overlapping scan of `re.findall(r'\b(\d+)\b', text)`: a maximal
digit run framed by word boundaries. -/
def findBoundedNumsAux : Nat → Option Char → List Char → List String
  | 0, _, _ => []
  | fuel + 1, prev, l =>
    match l with
    | [] => []
    | c :: t =>
      match
        (if boundaryBefore prev && c.isDigit then
          let digits := (c :: t).takeWhile Char.isDigit
          if boundaryAfter ((c :: t).drop digits.length) then some (digits, (c :: t).drop digits.length)
          else none
        else none) with
      | some (digits, rest) =>
        String.mk digits :: findBoundedNumsAux fuel (some (digits.getLastD '0')) rest
      | none => findBoundedNumsAux fuel (some c) t

/-- All word-bounded number parameters of the text. -/
def findBoundedNums (text : String) : List String :=
  findBoundedNumsAux text.toList.length none text.toList

/-- Insert into a sorted duplicate-free list (Python's
`sorted(list(set(...)))` semantics, lexicographic by code point). -/
def insertUniqueSorted (x : String) : List String → List String
  | [] => [x]
  | y :: t =>
    if x = y then y :: t
    else if pyStrLt x y then x :: y :: t
    else y :: insertUniqueSorted x t

/-- `sorted(list(set(l)))`. -/
def sortedUnique (l : List String) : List String := l.foldr insertUniqueSorted []

/-- `EnhancedSQLRAGSystem._extract_all_parameters` (rag_system.py lines
233-241): vehicle ids plus the two number scans, deduplicated and sorted. -/
def extractAllParameters (text : String) : List String :=
  sortedUnique (findVehicleIds text ++ (findKeyedNums text ++ findBoundedNums text))

/-! ## The success cache (`EnhancedSQLRAGSystem`, rag_system.py lines
219-330)

The embedding model and the question-synonym rewrite table are external
collaborators (`RagEnv`); similarities are modelled over integer-scaled
vectors with a threshold of the same scale, so the dot-product comparison
structure matches `np.dot(...) >= threshold`. -/

structure CacheEntry where
  sql : String
  source : String
  params : List String
  emb : List Int
  deriving DecidableEq

structure RagEnv where
  synonymRewrite : String → String
  embed : String → List Int

/-- Python `str.strip()` (whitespace both ends). -/
def pyStrip (s : String) : String :=
  String.mk (((s.toList.dropWhile isPyWs).reverse.dropWhile isPyWs).reverse)

/-- Python `str.rstrip("?")`. -/
def rstripQm (s : String) : String :=
  String.mk ((s.toList.reverse.dropWhile (fun c => c = '?')).reverse)

/-- `EnhancedSQLRAGSystem.normalize_question` (rag_system.py lines 219-223):
lower, strip, drop trailing question marks, then the regex synonym
rewrites (a collaborator-supplied table). -/
def normalizeQuestion (env : RagEnv) (q : String) : String :=
  env.synonymRewrite (rstripQm (pyStrip (lowerS q)))

/-- The persisted `success_cache` dict: an insertion-ordered association
list with unique keys (normalized question). -/
abbrev SuccessCache := List (String × CacheEntry)

/-- Python dict assignment `cache[k] = v`: replace in place or append. -/
def cacheSet (c : SuccessCache) (k : String) (v : CacheEntry) : SuccessCache :=
  match c with
  | [] => [(k, v)]
  | p :: t => if p.1 = k then (k, v) :: t else p :: cacheSet t k v

/-- Python dict lookup. -/
def cacheGet (c : SuccessCache) (k : String) : Option CacheEntry :=
  (c.find? (fun p => p.1 = k)).map (·.2)

/-- Python `del cache[k]` (unique keys, so the filter removes that entry). -/
def cacheDel (c : SuccessCache) (k : String) : SuccessCache :=
  c.filter (fun p => p.1 ≠ k)

/-- Integer dot product standing for `np.dot`. -/
def dotI (a b : List Int) : Int := (a.zip b).foldl (fun acc p => acc + p.1 * p.2) 0

/-- `np.argmax`: first index of the maximum. -/
def argmaxAux : List Int → Nat → Int → Nat → Nat
  | [], _, _, best => best
  | x :: t, i, bv, best => if bv < x then argmaxAux t (i + 1) x i else argmaxAux t (i + 1) bv best

/-- `np.argmax` over a similarity list (0 on the empty list, unused). -/
def argmaxIdx : List Int → Nat
  | [] => 0
  | x :: t => argmaxAux t 1 x 0

/-- A `find_in_cache` outcome: the bare cached SQL, or the adapted SQL with
the parameter count (the `(adapted_sql, len(user_params))` tuple). -/
inductive CacheHit where
  | plain (sql : String)
  | adapted (sql : String) (n : Nat)
  deriving DecidableEq

/-- `EnhancedSQLRAGSystem._smart_parameter_substitution` (rag_system.py
lines 296-299): positional case-insensitive literal substitution, one
`re.sub` per parameter pair. -/
def smartParameterSubstitution (sql : String) (olds news : List String) : String :=
  (olds.zip news).foldl
    (fun s p => String.mk (substCI p.1.toList p.2.toList s.toList.length s.toList)) sql

/-- `EnhancedSQLRAGSystem.find_in_cache` (rag_system.py lines 271-294):
exact hit on the normalized question, else the best embedding similarity
against the cached entries; at or above the threshold the cached SQL is
adapted when the parameter counts match and both are non-empty. -/
def findInCache (env : RagEnv) (cache : SuccessCache) (question : String) (threshold : Int) :
    Option CacheHit :=
  match cacheGet cache (normalizeQuestion env question) with
  | some e => some (.plain e.sql)
  | none =>
    match cache with
    | [] => none
    | _ :: _ =>
      match cache.get? (argmaxIdx (cache.map
        (fun p => dotI p.2.emb (env.embed (normalizeQuestion env question))))) with
      | none => none
      | some p =>
        if threshold ≤ dotI p.2.emb (env.embed (normalizeQuestion env question)) then
          if extractAllParameters question ≠ [] ∧ p.2.params ≠ [] ∧
              (extractAllParameters question).length = p.2.params.length then
            some (.adapted (smartParameterSubstitution p.2.sql p.2.params
              (extractAllParameters question)) (extractAllParameters question).length)
          else some (.plain p.2.sql)
        else none

/-- `EnhancedSQLRAGSystem.cache_successful_query` (rag_system.py lines
301-313): store the entry under the normalized question (the on-disk write
and index rebuild carry the same state). -/
def cacheStore (env : RagEnv) (cache : SuccessCache) (question sql source : String) :
    SuccessCache :=
  cacheSet cache (normalizeQuestion env question)
    ⟨sql, source, extractAllParameters question, env.embed (normalizeQuestion env question)⟩

/-- `EnhancedSQLRAGSystem.invalidate_cache_entry` (rag_system.py lines
315-322). -/
def invalidateCacheEntry (env : RagEnv) (cache : SuccessCache) (question : String) :
    SuccessCache :=
  if cache.any (fun p => p.1 = normalizeQuestion env question) then
    cacheDel cache (normalizeQuestion env question)
  else cache

lemma cacheGet_set_self (c : SuccessCache) (k : String) (v : CacheEntry) :
    cacheGet (cacheSet c k v) k = some v := by
  induction c with
  | nil => simp [cacheSet, cacheGet, List.find?]
  | cons p t ih =>
    by_cases h : p.1 = k
    · simp [cacheSet, cacheGet, h, List.find?]
    · simp only [cacheSet, if_neg h]
      simpa [cacheGet, List.find?, h] using ih

lemma cacheGet_invalidate (env : RagEnv) (c : SuccessCache) (q : String) :
    cacheGet (invalidateCacheEntry env c q) (normalizeQuestion env q) = none := by
  unfold invalidateCacheEntry
  by_cases h : c.any (fun p => p.1 = normalizeQuestion env q) = true
  · rw [if_pos h]
    unfold cacheGet cacheDel
    have : List.find? (fun p => p.1 = normalizeQuestion env q)
        (c.filter (fun p => p.1 ≠ normalizeQuestion env q)) = none := by
      rw [List.find?_eq_none]
      intro x hx
      have := List.of_mem_filter hx
      simpa using this
    rw [this]
    rfl
  · rw [if_neg h]
    unfold cacheGet
    have : List.find? (fun p => p.1 = normalizeQuestion env q) c = none := by
      rw [List.find?_eq_none]
      intro x hx
      intro hcon
      exact h (List.any_eq_true.mpr ⟨x, hx, hcon⟩)
    rw [this]
    rfl

lemma findInCache_exact_hit (env : RagEnv) (c : SuccessCache) (q sql source : String)
    (thr : Int) :
    findInCache env (cacheStore env c q sql source) q thr = some (.plain sql) := by
  unfold findInCache cacheStore
  rw [cacheGet_set_self]

/-- C4: storing the same `(question, sql, source)` twice and then looking
the question up returns that SQL through the exact-match path; after
invalidating the entry, the lookup returns `none`, provided no remaining
cached entry reaches the similarity threshold against the question. -/
theorem c4_cache_idempotence (env : RagEnv) (cache : SuccessCache) (q sql src : String)
    (thr : Int)
    (hinv : ∀ e ∈ invalidateCacheEntry env
        (cacheStore env (cacheStore env cache q sql src) q sql src) q,
      dotI e.2.emb (env.embed (normalizeQuestion env q)) < thr) :
    findInCache env (cacheStore env (cacheStore env cache q sql src) q sql src) q thr
        = some (.plain sql) ∧
      findInCache env
        (invalidateCacheEntry env (cacheStore env (cacheStore env cache q sql src) q sql src) q)
        q thr = none := by
  refine ⟨findInCache_exact_hit env _ q sql src thr, ?_⟩
  unfold findInCache
  rw [cacheGet_invalidate]
  cases hc3 : invalidateCacheEntry env
      (cacheStore env (cacheStore env cache q sql src) q sql src) q with
  | nil => rfl
  | cons p t =>
    cases hget : (p :: t).get?
        (argmaxIdx ((p :: t).map
          (fun p => dotI p.2.emb (env.embed (normalizeQuestion env q))))) with
    | none => rfl
    | some p' =>
      have hmem : p' ∈ p :: t := List.get?_mem hget
      have hlt := hinv p' (by rw [hc3]; exact hmem)
      simp only []
      rw [if_neg (by omega)]

/-- A concrete collaborator instantiation for closed cache evaluations: no
synonym rewrites, constant embedding. -/
def ragEnvConst : RagEnv := ⟨fun s => s, fun _ => [0]⟩

/-- C4 witness: a concrete double store, lookup and invalidation. -/
theorem c4_cache_idempotence_witness :
    findInCache ragEnvConst
        (cacheStore ragEnvConst (cacheStore ragEnvConst [] "q1" "SELECT 1" "test")
          "q1" "SELECT 1" "test") "q1" 1 = some (.plain "SELECT 1") ∧
      findInCache ragEnvConst
        (invalidateCacheEntry ragEnvConst
          (cacheStore ragEnvConst (cacheStore ragEnvConst [] "q1" "SELECT 1" "test")
            "q1" "SELECT 1" "test") "q1") "q1" 1 = none :=
  c4_cache_idempotence ragEnvConst [] "q1" "SELECT 1" "test" 1 (by decide)

/-! ## Lemmas about case-insensitive substitution (for the
parameter-substitution claim) -/

/-- No character of `X` coincides, after lowering, with a character of
`Y`: the non-interference condition under which sequential `re.sub`
substitutions cannot cascade. -/
def lowerDisjoint (X Y : List Char) : Prop :=
  ∀ a ∈ X, ∀ b ∈ Y, a.toLower ≠ b.toLower

instance lowerDisjointDec (X Y : List Char) : Decidable (lowerDisjoint X Y) :=
  inferInstanceAs (Decidable (∀ a ∈ X, ∀ b ∈ Y, a.toLower ≠ b.toLower))

lemma occursL_append_right {w Q : List Char} (P : List Char) (h : occursL w Q = true) :
    occursL w (P ++ Q) = true := by
  induction P with
  | nil => simpa using h
  | cons p P' ih =>
    show occursL w (p :: (P' ++ Q)) = true
    unfold occursL
    rw [ih]
    simp

lemma occursCIL_append_right {w Q : List Char} (P : List Char) (h : occursCIL w Q = true) :
    occursCIL w (P ++ Q) = true := by
  induction P with
  | nil => simpa using h
  | cons p P' ih =>
    show occursCIL w (p :: (P' ++ Q)) = true
    unfold occursCIL
    rw [ih]
    simp

lemma occursL_self_append (w R : List Char) : occursL w (w ++ R) = true := by
  cases w with
  | nil =>
    cases R with
    | nil => rfl
    | cons c t => simp [occursL]
  | cons c t =>
    unfold occursL
    have : (c :: t).isPrefixOf ((c :: t) ++ R) = true := by
      rw [List.isPrefixOf_iff_prefix]
      exact List.prefix_append _ _
    simp [this]

lemma ciPrefixL_of_isPrefixOf {w s : List Char} (h : w.isPrefixOf s = true) :
    ciPrefixL w s = true := by
  induction w generalizing s with
  | nil => rfl
  | cons a as ih =>
    cases s with
    | nil => simp [List.isPrefixOf] at h
    | cons b bs =>
      simp only [List.isPrefixOf, Bool.and_eq_true, beq_iff_eq] at h
      obtain ⟨rfl, h2⟩ := h
      simp [ciPrefixL, ih h2]

lemma occursCIL_of_occursL {w s : List Char} (h : occursL w s = true) :
    occursCIL w s = true := by
  induction s with
  | nil => simpa [occursL, occursCIL] using h
  | cons c t ih =>
    unfold occursL at h
    unfold occursCIL
    rcases Bool.or_eq_true_iff.mp h with h1 | h2
    · rw [ciPrefixL_of_isPrefixOf h1]
      simp
    · rw [ih h2]
      simp

lemma occursCIL_of_drop {w l : List Char} (k : Nat)
    (h : occursCIL w (l.drop k) = true) : occursCIL w l = true := by
  induction k generalizing l with
  | zero => simpa using h
  | succ k ih =>
    cases l with
    | nil => simpa using h
    | cons c t =>
      have := ih (l := t) (by simpa using h)
      unfold occursCIL
      rw [this]
      simp

lemma occursL_of_drop {w l : List Char} (k : Nat)
    (h : occursL w (l.drop k) = true) : occursL w l = true := by
  induction k generalizing l with
  | zero => simpa using h
  | succ k ih =>
    cases l with
    | nil => simpa using h
    | cons c t =>
      have := ih (l := t) (by simpa using h)
      unfold occursL
      rw [this]
      simp

lemma occursCIL_append_split {X P Q : List Char} (hX : X ≠ [])
    (h : occursCIL X (P ++ Q) = true) :
    (∃ p ∈ P, ∃ x ∈ X, p.toLower = x.toLower) ∨ occursCIL X Q = true := by
  induction P with
  | nil => right; simpa using h
  | cons p P' ih =>
    rw [List.cons_append] at h
    unfold occursCIL at h
    rcases Bool.or_eq_true_iff.mp h with h1 | h2
    · cases X with
      | nil => exact absurd rfl hX
      | cons x X' =>
        simp only [ciPrefixL, Bool.and_eq_true] at h1
        exact Or.inl ⟨p, List.mem_cons_self p _, x, List.mem_cons_self x _,
          (of_decide_eq_true h1.1).symm⟩
    · rcases ih h2 with ⟨p', hp', hx⟩ | hq
      · exact Or.inl ⟨p', List.mem_cons_of_mem p hp', hx⟩
      · exact Or.inr hq

lemma lowerDisjoint_symm {X Y : List Char} (h : lowerDisjoint X Y) : lowerDisjoint Y X :=
  fun b hb a ha => (h a ha b hb).symm

lemma lowerDisjoint_of_cons {x : Char} {X Y : List Char} (h : lowerDisjoint (x :: X) Y) :
    lowerDisjoint X Y :=
  fun a ha => h a (List.mem_cons_of_mem x ha)

lemma occursCIL_skip_match {B A : List Char} (dis : lowerDisjoint B A) (hB : B ≠ []) :
    ∀ (M s : List Char), ciPrefixL M s = true →
      (∀ a ∈ M, ∃ b ∈ A, a.toLower = b.toLower) →
      occursCIL B s = true → occursCIL B (s.drop M.length) = true := by
  intro M
  induction M with
  | nil => intro s _ _ h; simpa using h
  | cons m M' ih =>
    intro s hpre hsub hocc
    cases s with
    | nil => simp [ciPrefixL] at hpre
    | cons c s' =>
      simp only [ciPrefixL, Bool.and_eq_true] at hpre
      obtain ⟨hmc, hpre'⟩ := hpre
      unfold occursCIL at hocc
      rcases Bool.or_eq_true_iff.mp hocc with h1 | h2
      · cases B with
        | nil => exact absurd rfl hB
        | cons b B' =>
          simp only [ciPrefixL, Bool.and_eq_true] at h1
          have hbc : b.toLower = c.toLower := of_decide_eq_true h1.1
          have hmc' : m.toLower = c.toLower := of_decide_eq_true hmc
          obtain ⟨a, ha, haa⟩ := hsub m (List.mem_cons_self m M')
          have : b.toLower = a.toLower := by rw [hbc, ← hmc', haa]
          exact absurd this (dis b (List.mem_cons_self b B') a ha)
      · have := ih s' hpre' (fun a ha => hsub a (List.mem_cons_of_mem m ha)) h2
        simpa using this

lemma occursL_skip_match {C B : List Char} (dis : lowerDisjoint C B) (hC : C ≠ []) :
    ∀ (M s : List Char), ciPrefixL M s = true →
      (∀ a ∈ M, ∃ b ∈ B, a.toLower = b.toLower) →
      occursL C s = true → occursL C (s.drop M.length) = true := by
  intro M
  induction M with
  | nil => intro s _ _ h; simpa using h
  | cons m M' ih =>
    intro s hpre hsub hocc
    cases s with
    | nil => simp [ciPrefixL] at hpre
    | cons c s' =>
      simp only [ciPrefixL, Bool.and_eq_true] at hpre
      obtain ⟨hmc, hpre'⟩ := hpre
      unfold occursL at hocc
      rcases Bool.or_eq_true_iff.mp hocc with h1 | h2
      · cases C with
        | nil => exact absurd rfl hC
        | cons c0 C0 =>
          simp only [List.isPrefixOf, Bool.and_eq_true, beq_iff_eq] at h1
          have hmc' : m.toLower = c.toLower := of_decide_eq_true hmc
          obtain ⟨b, hb, hab⟩ := hsub m (List.mem_cons_self m M')
          have : c0.toLower = b.toLower := by rw [h1.1, ← hmc', hab]
          exact absurd this (dis c0 (List.mem_cons_self c0 C0) b hb)
      · have := ih s' hpre' (fun a ha => hsub a (List.mem_cons_of_mem m ha)) h2
        simpa using this

lemma substCI_match_eq {old new : List Char} {f : Nat} {c : Char} {t : List Char}
    (h : (ciPrefixL old (c :: t) && !old.isEmpty) = true) :
    substCI old new (f + 1) (c :: t) = new ++ substCI old new f ((c :: t).drop old.length) := by
  conv_lhs => unfold substCI
  rw [if_pos h]

lemma substCI_nomatch_eq {old new : List Char} {f : Nat} {c : Char} {t : List Char}
    (h : (ciPrefixL old (c :: t) && !old.isEmpty) = false) :
    substCI old new (f + 1) (c :: t) = c :: substCI old new f t := by
  conv_lhs => unfold substCI
  rw [if_neg (by simp [h])]

lemma drop_length_le {old : List Char} (hold : old ≠ []) {c : Char} {t : List Char} {f : Nat}
    (hf : (c :: t).length ≤ f + 1) : ((c :: t).drop old.length).length ≤ f := by
  have h1 : 0 < old.length := List.length_pos.mpr hold
  simp only [List.length_drop, List.length_cons] at *
  omega

lemma ciPrefixL_of_substCI {B D : List Char} (hD : D ≠ []) :
    ∀ (f : Nat) (s X : List Char), s.length ≤ f → lowerDisjoint X D →
      ciPrefixL X (substCI B D f s) = true → ciPrefixL X s = true := by
  intro f
  induction f with
  | zero =>
    intro s X _ _ h
    simpa [substCI] using h
  | succ f ih =>
    intro s X hf dis h
    cases s with
    | nil => simpa [substCI] using h
    | cons c t =>
      by_cases hm : (ciPrefixL B (c :: t) && !B.isEmpty) = true
      · rw [substCI_match_eq hm] at h
        cases X with
        | nil => rfl
        | cons x X' =>
          cases D with
          | nil => exact absurd rfl hD
          | cons d D' =>
            rw [List.cons_append] at h
            simp only [ciPrefixL, Bool.and_eq_true] at h
            have : x.toLower = d.toLower := of_decide_eq_true h.1
            exact absurd this (dis x (List.mem_cons_self x X') d (List.mem_cons_self d D'))
      · rw [substCI_nomatch_eq (by simpa using hm)] at h
        cases X with
        | nil => rfl
        | cons x X' =>
          simp only [ciPrefixL, Bool.and_eq_true] at h ⊢
          exact ⟨h.1, ih t X' (by simpa using hf) (lowerDisjoint_of_cons dis) h.2⟩

lemma ciPrefixL_substCI {B D : List Char} (hB : B ≠ []) :
    ∀ (f : Nat) (s X : List Char), lowerDisjoint X B →
      ciPrefixL X s = true → ciPrefixL X (substCI B D f s) = true := by
  intro f
  induction f with
  | zero =>
    intro s X _ h
    simpa [substCI] using h
  | succ f ih =>
    intro s X dis h
    cases s with
    | nil =>
      cases X with
      | nil => rfl
      | cons x X' => simp [ciPrefixL] at h
    | cons c t =>
      by_cases hm : (ciPrefixL B (c :: t) && !B.isEmpty) = true
      · cases X with
        | nil => rfl
        | cons x X' =>
          cases B with
          | nil => exact absurd rfl hB
          | cons b B' =>
            have hpre : ciPrefixL (b :: B') (c :: t) = true := by
              rw [Bool.and_eq_true] at hm
              exact hm.1
            simp only [ciPrefixL, Bool.and_eq_true] at hpre h
            have hxc : x.toLower = c.toLower := of_decide_eq_true h.1
            have hbc : b.toLower = c.toLower := of_decide_eq_true hpre.1
            have : x.toLower = b.toLower := by rw [hxc, hbc]
            exact absurd this (dis x (List.mem_cons_self x X') b (List.mem_cons_self b B'))
      · rw [substCI_nomatch_eq (by simpa using hm)]
        cases X with
        | nil => rfl
        | cons x X' =>
          simp only [ciPrefixL, Bool.and_eq_true] at h ⊢
          exact ⟨h.1, ih t X' (lowerDisjoint_of_cons dis) h.2⟩

lemma isPrefixOf_substCI {B D : List Char} (hB : B ≠ []) :
    ∀ (f : Nat) (s X : List Char), lowerDisjoint X B →
      X.isPrefixOf s = true → X.isPrefixOf (substCI B D f s) = true := by
  intro f
  induction f with
  | zero =>
    intro s X _ h
    simpa [substCI] using h
  | succ f ih =>
    intro s X dis h
    cases s with
    | nil =>
      cases X with
      | nil => rfl
      | cons x X' => simp [List.isPrefixOf] at h
    | cons c t =>
      by_cases hm : (ciPrefixL B (c :: t) && !B.isEmpty) = true
      · cases X with
        | nil =>
          rw [List.isPrefixOf_iff_prefix]
          exact List.nil_prefix
        | cons x X' =>
          cases B with
          | nil => exact absurd rfl hB
          | cons b B' =>
            have hpre : ciPrefixL (b :: B') (c :: t) = true := by
              rw [Bool.and_eq_true] at hm
              exact hm.1
            simp only [List.isPrefixOf, Bool.and_eq_true, beq_iff_eq] at h
            simp only [ciPrefixL, Bool.and_eq_true] at hpre
            have hbc : b.toLower = c.toLower := of_decide_eq_true hpre.1
            have : x.toLower = b.toLower := by rw [h.1, hbc]
            exact absurd this (dis x (List.mem_cons_self x X') b (List.mem_cons_self b B'))
      · rw [substCI_nomatch_eq (by simpa using hm)]
        cases X with
        | nil =>
          rw [List.isPrefixOf_iff_prefix]
          exact List.nil_prefix
        | cons x X' =>
          simp only [List.isPrefixOf, Bool.and_eq_true, beq_iff_eq] at h ⊢
          exact ⟨h.1, ih t X' (lowerDisjoint_of_cons dis) h.2⟩

lemma substCI_contains_new {B D : List Char} (hB : B ≠ []) :
    ∀ (f : Nat) (s : List Char), s.length ≤ f → occursCIL B s = true →
      occursL D (substCI B D f s) = true := by
  intro f
  induction f with
  | zero =>
    intro s hf hocc
    have : s = [] := List.eq_nil_of_length_eq_zero (Nat.le_zero.mp hf)
    subst this
    cases B with
    | nil => exact absurd rfl hB
    | cons b B' => simp [occursCIL] at hocc
  | succ f ih =>
    intro s hf hocc
    cases s with
    | nil =>
      cases B with
      | nil => exact absurd rfl hB
      | cons b B' => simp [occursCIL] at hocc
    | cons c t =>
      by_cases hm : (ciPrefixL B (c :: t) && !B.isEmpty) = true
      · rw [substCI_match_eq hm]
        exact occursL_self_append D _
      · rw [substCI_nomatch_eq (by simpa using hm)]
        have hm2 : (ciPrefixL B (c :: t) && !B.isEmpty) = false := by
          simpa using hm
        have hnm : ciPrefixL B (c :: t) = false := by
          rcases Bool.and_eq_false_iff.mp hm2 with h | h
          · exact h
          · cases B with
            | nil => exact absurd rfl hB
            | cons b B' => simp [List.isEmpty] at h
        unfold occursCIL at hocc
        rw [hnm] at hocc
        simp only [Bool.false_or] at hocc
        have := ih t (by simpa using hf) hocc
        unfold occursL
        rw [this]
        simp

lemma substCI_no_old {B D : List Char} (hB : B ≠ []) (hD : D ≠ [])
    (dis : lowerDisjoint B D) :
    ∀ (f : Nat) (s : List Char), s.length ≤ f →
      occursCIL B (substCI B D f s) = false := by
  intro f
  induction f with
  | zero =>
    intro s hf
    have : s = [] := List.eq_nil_of_length_eq_zero (Nat.le_zero.mp hf)
    subst this
    cases B with
    | nil => exact absurd rfl hB
    | cons b B' => simp [substCI, occursCIL]
  | succ f ih =>
    intro s hf
    cases s with
    | nil =>
      cases B with
      | nil => exact absurd rfl hB
      | cons b B' => simp [substCI, occursCIL]
    | cons c t =>
      by_cases hm : (ciPrefixL B (c :: t) && !B.isEmpty) = true
      · rw [substCI_match_eq hm]
        have hBne : B ≠ [] := hB
        have hrec := ih ((c :: t).drop B.length) (drop_length_le hBne hf)
        rw [← Bool.not_eq_true]
        intro hocc
        rcases occursCIL_append_split hB hocc with ⟨p, hp, x, hx, hpx⟩ | hQ
        · exact absurd hpx.symm (dis x hx p hp)
        · rw [hrec] at hQ
          cases hQ
      · rw [substCI_nomatch_eq (by simpa using hm)]
        have hm2 : (ciPrefixL B (c :: t) && !B.isEmpty) = false := by
          simpa using hm
        have hnm : ciPrefixL B (c :: t) = false := by
          rcases Bool.and_eq_false_iff.mp hm2 with h | h
          · exact h
          · cases B with
            | nil => exact absurd rfl hB
            | cons b B' => simp [List.isEmpty] at h
        have hrec := ih t (by simpa using hf)
        rw [← Bool.not_eq_true]
        intro hocc
        unfold occursCIL at hocc
        rcases Bool.or_eq_true_iff.mp hocc with h1 | h2
        · cases B with
          | nil => exact absurd rfl hB
          | cons b B' =>
            simp only [ciPrefixL, Bool.and_eq_true] at h1
            have h1' := ciPrefixL_of_substCI hD f t B' (by simpa using hf)
              (lowerDisjoint_of_cons dis) h1.2
            have : ciPrefixL (b :: B') (c :: t) = true := by
              simp only [ciPrefixL, Bool.and_eq_true]
              exact ⟨h1.1, h1'⟩
            rw [hnm] at this
            cases this
        · rw [hrec] at h2
          cases h2

lemma substCI_preserves_absent {B D X : List Char} (hX : X ≠ []) (hD : D ≠ [])
    (dis : lowerDisjoint X D) :
    ∀ (f : Nat) (s : List Char), s.length ≤ f → occursCIL X s = false →
      occursCIL X (substCI B D f s) = false := by
  intro f
  induction f with
  | zero =>
    intro s hf habs
    have : s = [] := List.eq_nil_of_length_eq_zero (Nat.le_zero.mp hf)
    subst this
    simpa [substCI] using habs
  | succ f ih =>
    intro s hf habs
    cases s with
    | nil => simpa [substCI] using habs
    | cons c t =>
      have habs' := habs
      unfold occursCIL at habs'
      rw [Bool.or_eq_false_iff] at habs'
      obtain ⟨hnp, hnt⟩ := habs'
      by_cases hm : (ciPrefixL B (c :: t) && !B.isEmpty) = true
      · rw [substCI_match_eq hm]
        have hBne : B ≠ [] := by
          have hm2 := hm
          rw [Bool.and_eq_true] at hm2
          intro hcon
          rw [hcon] at hm2
          simp at hm2
        have hdropabs : occursCIL X ((c :: t).drop B.length) = false := by
          rw [← Bool.not_eq_true]
          intro hocc
          have := occursCIL_of_drop B.length hocc
          rw [habs] at this
          cases this
        have hrec := ih ((c :: t).drop B.length) (drop_length_le hBne hf) hdropabs
        rw [← Bool.not_eq_true]
        intro hocc
        rcases occursCIL_append_split hX hocc with ⟨p, hp, x, hx, hpx⟩ | hQ
        · exact absurd hpx.symm (dis x hx p hp)
        · rw [hrec] at hQ
          cases hQ
      · rw [substCI_nomatch_eq (by simpa using hm)]
        have hrec := ih t (by simpa using hf) hnt
        rw [← Bool.not_eq_true]
        intro hocc
        unfold occursCIL at hocc
        rcases Bool.or_eq_true_iff.mp hocc with h1 | h2
        · cases X with
          | nil => exact absurd rfl hX
          | cons x X' =>
            simp only [ciPrefixL, Bool.and_eq_true] at h1
            have h1' := ciPrefixL_of_substCI hD f t X' (by simpa using hf)
              (lowerDisjoint_of_cons dis) h1.2
            have : ciPrefixL (x :: X') (c :: t) = true := by
              simp only [ciPrefixL, Bool.and_eq_true]
              exact ⟨h1.1, h1'⟩
            rw [hnp] at this
            cases this
        · rw [hrec] at h2
          cases h2

lemma substCI_preserves_occursL {B D C : List Char} (hC : C ≠ []) (hB : B ≠ [])
    (dis : lowerDisjoint C B) :
    ∀ (f : Nat) (s : List Char), s.length ≤ f → occursL C s = true →
      occursL C (substCI B D f s) = true := by
  intro f
  induction f with
  | zero =>
    intro s hf hocc
    have : s = [] := List.eq_nil_of_length_eq_zero (Nat.le_zero.mp hf)
    subst this
    simpa [substCI] using hocc
  | succ f ih =>
    intro s hf hocc
    cases s with
    | nil =>
      cases C with
      | nil => exact absurd rfl hC
      | cons c0 C0 => simp [occursL] at hocc
    | cons c t =>
      by_cases hm : (ciPrefixL B (c :: t) && !B.isEmpty) = true
      · rw [substCI_match_eq hm]
        have hpre : ciPrefixL B (c :: t) = true := by
          have hm2 := hm
          rw [Bool.and_eq_true] at hm2
          exact hm2.1
        have hdrop : occursL C ((c :: t).drop B.length) = true :=
          occursL_skip_match dis hC B (c :: t) hpre (fun a ha => ⟨a, ha, rfl⟩) hocc
        have := ih ((c :: t).drop B.length) (drop_length_le hB hf) hdrop
        exact occursL_append_right D this
      · rw [substCI_nomatch_eq (by simpa using hm)]
        unfold occursL at hocc
        rcases Bool.or_eq_true_iff.mp hocc with h1 | h2
        · cases C with
          | nil => exact absurd rfl hC
          | cons c0 C0 =>
            simp only [List.isPrefixOf, Bool.and_eq_true, beq_iff_eq] at h1
            have h1' := isPrefixOf_substCI (D := D) hB f t C0 (lowerDisjoint_of_cons dis) h1.2
            unfold occursL
            have : (c0 :: C0).isPrefixOf (c :: substCI B D f t) = true := by
              simp only [List.isPrefixOf, Bool.and_eq_true, beq_iff_eq]
              exact ⟨h1.1, h1'⟩
            rw [this]
            simp
        · have := ih t (by simpa using hf) h2
          unfold occursL
          rw [this]
          simp

lemma substCI_preserves_occursCIL {B D C : List Char} (hC : C ≠ []) (hB : B ≠ [])
    (dis : lowerDisjoint C B) :
    ∀ (f : Nat) (s : List Char), s.length ≤ f → occursCIL C s = true →
      occursCIL C (substCI B D f s) = true := by
  intro f
  induction f with
  | zero =>
    intro s hf hocc
    have : s = [] := List.eq_nil_of_length_eq_zero (Nat.le_zero.mp hf)
    subst this
    simpa [substCI] using hocc
  | succ f ih =>
    intro s hf hocc
    cases s with
    | nil =>
      cases C with
      | nil => exact absurd rfl hC
      | cons c0 C0 => simp [occursCIL] at hocc
    | cons c t =>
      by_cases hm : (ciPrefixL B (c :: t) && !B.isEmpty) = true
      · rw [substCI_match_eq hm]
        have hpre : ciPrefixL B (c :: t) = true := by
          have hm2 := hm
          rw [Bool.and_eq_true] at hm2
          exact hm2.1
        have hdrop : occursCIL C ((c :: t).drop B.length) = true :=
          occursCIL_skip_match dis hC B (c :: t) hpre (fun a ha => ⟨a, ha, rfl⟩) hocc
        have := ih ((c :: t).drop B.length) (drop_length_le hB hf) hdrop
        exact occursCIL_append_right D this
      · rw [substCI_nomatch_eq (by simpa using hm)]
        unfold occursCIL at hocc
        rcases Bool.or_eq_true_iff.mp hocc with h1 | h2
        · cases C with
          | nil => exact absurd rfl hC
          | cons c0 C0 =>
            simp only [ciPrefixL, Bool.and_eq_true] at h1
            have h1' := ciPrefixL_substCI (D := D) hB f t C0 (lowerDisjoint_of_cons dis) h1.2
            unfold occursCIL
            have : ciPrefixL (c0 :: C0) (c :: substCI B D f t) = true := by
              simp only [ciPrefixL, Bool.and_eq_true]
              exact ⟨h1.1, h1'⟩
            rw [this]
            simp
        · have := ih t (by simpa using hf) h2
          unfold occursCIL
          rw [this]
          simp

lemma toList_ne_nil {s : String} (h : s ≠ "") : s.toList ≠ [] := by
  intro hc
  apply h
  cases s with
  | mk data =>
    have hd : data = [] := hc
    subst hd
    rfl

lemma occursIn_eq_occursL : ∀ (s w : List Char), occursIn s w = occursL w s := by
  intro s
  induction s with
  | nil => intro w; rfl
  | cons c t ih =>
    intro w
    show (w.isPrefixOf (c :: t) || occursIn t w) = (w.isPrefixOf (c :: t) || occursL w t)
    rw [ih]

lemma strContains_eq (hay sub : String) :
    strContains hay sub = occursL sub.toList hay.toList := by
  unfold strContains
  exact occursIn_eq_occursL _ _

lemma smartSub_two (sql A B C D : String) :
    (smartParameterSubstitution sql [A, B] [C, D]).toList
      = substCI B.toList D.toList
          (substCI A.toList C.toList sql.toList.length sql.toList).length
          (substCI A.toList C.toList sql.toList.length sql.toList) := rfl

/-- C5 counterexample: with cached parameters `[10, 20]` and new parameters
`[20, 30]` (both lists as `_extract_all_parameters` produces them from
concrete questions), the sequential substitution cascades: the first
replacement turns 10 into 20, the second then replaces every 20 - including
the freshly inserted one - by 30, so the adapted SQL does not contain the
new parameter 20. -/
theorem c5_counterexample :
    extractAllParameters "vehicles with speed > 10 and count > 20" = ["10", "20"] ∧
      extractAllParameters "vehicles with speed > 20 and count > 30" = ["20", "30"] ∧
      smartParameterSubstitution "SELECT * FROM t WHERE a = 10 AND b = 20"
          ["10", "20"] ["20", "30"]
        = "SELECT * FROM t WHERE a = 30 AND b = 30" ∧
      strContains
        (smartParameterSubstitution "SELECT * FROM t WHERE a = 10 AND b = 20"
          ["10", "20"] ["20", "30"]) "20" = false :=
  ⟨by decide, by decide, by decide, by decide⟩

/-- C5, amended: for a cached SQL containing parameters `A` and `B`
(case-insensitively) and non-interfering parameter strings - no character
of `A` coincides, after lowering, with a character of `B`, `C` or `D`, and
no character of `B` with one of `C` or `D` - the adapted SQL contains `C`
and `D` and contains neither `A` nor `B`.  Without such a side condition
the positional substitutions can cascade (see the counterexample). -/
theorem c5_substitution (sql A B C D : String)
    (hA : A ≠ "") (hB : B ≠ "") (hC : C ≠ "") (hD : D ≠ "")
    (hoccA : occursCIL A.toList sql.toList = true)
    (hoccB : occursCIL B.toList sql.toList = true)
    (dAB : lowerDisjoint A.toList B.toList) (dAC : lowerDisjoint A.toList C.toList)
    (dAD : lowerDisjoint A.toList D.toList) (dBC : lowerDisjoint B.toList C.toList)
    (dBD : lowerDisjoint B.toList D.toList) :
    strContains (smartParameterSubstitution sql [A, B] [C, D]) C = true ∧
      strContains (smartParameterSubstitution sql [A, B] [C, D]) D = true ∧
      strContains (smartParameterSubstitution sql [A, B] [C, D]) A = false ∧
      strContains (smartParameterSubstitution sql [A, B] [C, D]) B = false := by
  have hA' := toList_ne_nil hA
  have hB' := toList_ne_nil hB
  have hC' := toList_ne_nil hC
  have hD' := toList_ne_nil hD
  have f1 : occursL C.toList (substCI A.toList C.toList sql.toList.length sql.toList) = true :=
    substCI_contains_new hA' sql.toList.length sql.toList le_rfl hoccA
  have f2 : occursCIL B.toList (substCI A.toList C.toList sql.toList.length sql.toList) = true :=
    substCI_preserves_occursCIL hB' hA' (lowerDisjoint_symm dAB)
      sql.toList.length sql.toList le_rfl hoccB
  have f3 : occursCIL A.toList (substCI A.toList C.toList sql.toList.length sql.toList) = false :=
    substCI_no_old hA' hC' dAC sql.toList.length sql.toList le_rfl
  have g1 : occursL C.toList
      (substCI B.toList D.toList
        (substCI A.toList C.toList sql.toList.length sql.toList).length
        (substCI A.toList C.toList sql.toList.length sql.toList)) = true :=
    substCI_preserves_occursL hC' hB' (lowerDisjoint_symm dBC) _ _ le_rfl f1
  have g2 : occursL D.toList
      (substCI B.toList D.toList
        (substCI A.toList C.toList sql.toList.length sql.toList).length
        (substCI A.toList C.toList sql.toList.length sql.toList)) = true :=
    substCI_contains_new hB' _ _ le_rfl f2
  have g3 : occursCIL A.toList
      (substCI B.toList D.toList
        (substCI A.toList C.toList sql.toList.length sql.toList).length
        (substCI A.toList C.toList sql.toList.length sql.toList)) = false :=
    substCI_preserves_absent hA' hD' dAD _ _ le_rfl f3
  have g4 : occursCIL B.toList
      (substCI B.toList D.toList
        (substCI A.toList C.toList sql.toList.length sql.toList).length
        (substCI A.toList C.toList sql.toList.length sql.toList)) = false :=
    substCI_no_old hB' hD' dBD _ _ le_rfl
  refine ⟨?_, ?_, ?_, ?_⟩
  · rw [strContains_eq, smartSub_two]
    exact g1
  · rw [strContains_eq, smartSub_two]
    exact g2
  · rw [strContains_eq, smartSub_two, ← Bool.not_eq_true]
    intro hocc
    have := occursCIL_of_occursL hocc
    rw [g3] at this
    cases this
  · rw [strContains_eq, smartSub_two, ← Bool.not_eq_true]
    intro hocc
    have := occursCIL_of_occursL hocc
    rw [g4] at this
    cases this

/-- C5 witness: a concrete non-interfering adaptation, exercising the
amended claim. -/
theorem c5_substitution_witness :
    strContains (smartParameterSubstitution "WHERE x = '12' AND y = 'xy'"
        ["12", "xy"] ["34", "zw"]) "34" = true ∧
      strContains (smartParameterSubstitution "WHERE x = '12' AND y = 'xy'"
        ["12", "xy"] ["34", "zw"]) "zw" = true ∧
      strContains (smartParameterSubstitution "WHERE x = '12' AND y = 'xy'"
        ["12", "xy"] ["34", "zw"]) "12" = false ∧
      strContains (smartParameterSubstitution "WHERE x = '12' AND y = 'xy'"
        ["12", "xy"] ["34", "zw"]) "xy" = false :=
  c5_substitution "WHERE x = '12' AND y = 'xy'" "12" "xy" "34" "zw"
    (by decide) (by decide) (by decide) (by decide) (by decide) (by decide)
    (by decide) (by decide) (by decide) (by decide) (by decide)

/-! ## Deterministic table detection
(`AdaptiveLLMGenerator._determine_relevant_tables`, sql_generator.py lines
462-570, with the rule tables of `SQL_RULES` in training_data.py lines
916-935, 786-825)

The question is lowered before matching, and each regular expression of
`SQL_RULES["concept_patterns"]` is translated pattern by pattern:
`\b...\b` patterns become word searches, optional-plural patterns become
the disjunction of their alternatives, bare patterns become substring
searches, `last \d+ days?` and the two `.*` patterns get dedicated
scanners.  Sets of tables are modelled as `Finset String` (Python `set`
iteration order is irrelevant: every use either inserts into a set or
iterates a dict in insertion order). -/

/-- Word search for a pattern given as a string. -/
def pw (w : String) (q : List Char) : Bool := occursWord w.toList q

/-- `\bws?\b`: the word or its plural. -/
def pws (w : String) (q : List Char) : Bool := pw w q || pw (w ++ "s") q

/-- Bare substring pattern. -/
def psub (w : String) (q : List Char) : Bool := occursIn q w.toList

/-- `last \d+ days?`: the literal `last `, a digit run, then ` day`. -/
def lastNDaysPat : List Char → Bool
  | [] => false
  | c :: t =>
    ("last ".toList.isPrefixOf (c :: t) &&
      (let r := (c :: t).drop 5
       let digits := r.takeWhile Char.isDigit
       !digits.isEmpty && " day".toList.isPrefixOf (r.drop digits.length)))
    || lastNDaysPat t

/-- `a.*b` (with `.` not matching a newline): `a` somewhere, then `b`
within the rest of the same line. -/
def seqSameLine (a b : String) : List Char → Bool
  | [] => false
  | c :: t =>
    (a.toList.isPrefixOf (c :: t) &&
      occursIn (((c :: t).drop a.length).takeWhile (fun x => x ≠ '\n')) b.toList)
    || seqSameLine a b t

/-- The concept names of `SQL_RULES["concept_patterns"]` in dict order. -/
def conceptNames : List String :=
  ["risk", "violation", "alert", "transporter", "driver", "trip", "live_status",
   "audit", "geospatial", "performance", "device_health", "driver_behavior",
   "route_compliance", "time_analysis", "data_quality", "sap_filter",
   "schema_inquiry", "documentation_inquiry"]

/-- The per-concept pattern lists of `SQL_RULES["concept_patterns"]`
(training_data.py lines 916-935), each regex translated as described
above. -/
def conceptMatches (name : String) (q : List Char) : Bool :=
  if name = "risk" then
    pw "risk" q || pw "risky" q || pw "risk score" q || pw "hazard" q || pw "danger" q ||
      pw "safety rating" q || pw "risk profile" q
  else if name = "violation" then
    pws "violation" q || pws "event" q || pws "incident" q || pws "offense" q ||
      pw "breach" q || pw "breaches" q || pws "infringement" q || pw "non-compliance" q ||
      pws "infraction" q
  else if name = "alert" then
    pws "alert" q || pws "alarm" q || pws "warning" q || pws "notification" q ||
      pws "ticket" q || pws "case" q || pw "blocked" q
  else if name = "transporter" then
    pws "transporter" q || pws "carrier" q || pws "hauler" q || pws "operator" q ||
      pws "fleet owner" q || pws "logistics provider" q || pws "vendor" q
  else if name = "driver" then
    pws "driver" q || pws "pilot" q || pws "chauffeur" q
  else if name = "trip" then
    pws "trip" q || pws "journey" q || pws "route" q || pws "shipment" q ||
      pws "load" q || pws "consignment" q
  else if name = "live_status" then
    pw "current" q || pw "ongoing" q || pw "live" q || pw "where is" q ||
      pw "right now" q || pw "real-time" q || pw "active" q || pw "latest status" q ||
      pw "current position" q
  else if name = "audit" then
    pws "audit" q || pws "swipe" q || pws "emlock" q || pws "lock" q || pws "seal" q ||
      pw "lockid" q || pws "security check" q
  else if name = "geospatial" then
    pws "location" q || pws "zone" q || pws "region" q || pws "hotspot" q ||
      pws "area" q || pws "place" q || pw "city" q || pw "cities" q || pws "state" q ||
      pws "district" q || pw "geography" q
  else if name = "performance" then
    pw "performance" q || pw "improve" q || pw "improving" q || pw "trend" q ||
      pw "comparison" q || pw "rate" q || pw "efficiency" q || pw "productivity" q ||
      pw "utilize" q || pw "utilizing" q || pw "utilization" q || pw "benchmark" q
  else if name = "device_health" then
    psub "device" q || psub "tamper" q || psub "offline" q || psub "power" q ||
      psub "supply" q || psub "battery" q || psub "voltage" q || psub "health" q ||
      psub "disconnect" q || psub "gps status" q
  else if name = "driver_behavior" then
    psub "speeding" q || psub "speed" q || psub "stoppage" q || psub "fatigue" q ||
      psub "continuous driving" q || psub "night driving" q || psub "harsh" q ||
      psub "braking" q || psub "acceleration" q || psub "driving style" q
  else if name = "route_compliance" then
    psub "deviation" q || psub "route" q || psub "stoppage" q || psub "halt" q ||
      psub "detour" q || psub "path" q || psub "geofence" q
  else if name = "time_analysis" then
    psub "daily" q || psub "weekly" q || psub "monthly" q || psub "hourly" q ||
      psub "trend" q || psub "over time" q || lastNDaysPat q || psub "history" q ||
      psub "timeline" q || psub "period" q || psub "duration" q || psub "seasonality" q
  else if name = "sap_filter" then
    pw "sap_id" q || pw "sap id" q || pw "sap" q || pw "plant" q
  else if name = "schema_inquiry" then
    psub "column" q || psub "schema" q || psub "structure" q || psub "describe" q ||
      psub "datatype" q || psub "type" q || psub "field" q ||
      psub "table definition" q || psub "metadata" q
  else if name = "documentation_inquiry" then
    psub "what is the purpose" q || psub "explain" q || seqSameLine "how is" "calculated" q ||
      psub "difference between" q || psub "define" q || psub "meaning of" q ||
      seqSameLine "what does" "mean" q
  else false

/-- Step 1 of `_determine_relevant_tables`: the detected concepts (dict
order). -/
def detectConcepts (q : List Char) : List String :=
  conceptNames.filter (fun c => conceptMatches c q)

/-- `concept_to_table_map` (training_data.py lines 786-803). -/
def conceptToTable (c : String) : Option String :=
  if c = "risk" then some "tt_risk_score"
  else if c = "violation" then some "vts_alert_history"
  else if c = "alert" then some "alerts"
  else if c = "trip" then some "vts_ongoing_trips"
  else if c = "live_status" then some "vts_ongoing_trips"
  else if c = "audit" then some "vts_tripauditmaster"
  else if c = "performance" then some "vts_alert_history"
  else if c = "device_health" then some "vts_alert_history"
  else if c = "driver_behavior" then some "vts_alert_history"
  else if c = "route_compliance" then some "vts_alert_history"
  else if c = "time_analysis" then some "vts_alert_history"
  else if c = "master_data_filter" then some "vts_truck_master"
  else if c = "no_data_anomaly" then some "vts_truck_master"
  else if c = "sap_filter" then some "vts_truck_master"
  else if c = "schema_inquiry" then some "information_schema.columns"
  else none

/-- `concept_combination_rules` (training_data.py lines 805-825) in dict
order. -/
def comboRules : List (List String × String) :=
  [(["risk", "transporter"], "transporter_risk_score"),
   (["violation", "transporter"], "vts_truck_master"),
   (["violation", "driver"], "vts_truck_master"),
   (["alert", "transporter"], "vts_truck_master"),
   (["live_status", "risk"], "tt_risk_score"),
   (["audit", "driver"], "vts_ongoing_trips"),
   (["audit", "transporter"], "vts_truck_master"),
   (["performance", "transporter"], "vts_truck_master"),
   (["performance", "driver"], "vts_truck_master"),
   (["driver_behavior", "driver"], "vts_truck_master"),
   (["device_health", "risk"], "tt_risk_score"),
   (["geospatial", "risk"], "tt_risk_score"),
   (["sap_filter", "risk"], "vts_truck_master"),
   (["geospatial", "violation"], "vts_alert_history"),
   (["data_quality", "trip"], "vts_ongoing_trips"),
   (["data_quality", "alert"], "alerts")]

/-- Step 3: one combination rule applied to the running table set
(sql_generator.py lines 508-520): an applicable rule may first discard the
current-risk table (and, for historical risk, the generic history table)
and then adds its result table. -/
def applyCombo (concepts : List String) (S : Finset String) (rule : List String × String) :
    Finset String :=
  if rule.1.all (fun c => concepts.contains c) then
    insert rule.2
      (if rule.2 = "completed_trips_risk_score" then
        ((if rule.2 = "transporter_risk_score" then S.erase "tt_risk_score" else S).erase
          "tt_risk_score").erase "vts_alert_history"
      else if rule.2 = "transporter_risk_score" then S.erase "tt_risk_score" else S)
  else S

/-- The fact tables of steps 3.5-4 (sql_generator.py line 525). -/
def transactionalTables : List String :=
  ["alerts", "vts_alert_history", "vts_ongoing_trips", "tt_risk_score"]

/-- The master-data keywords of step 3.5 (sql_generator.py line 524). -/
def masterDataKw (q : List Char) : Bool :=
  psub "zone" q || psub "region" q || psub "transporter" q || psub "ownership" q ||
    psub "blacklisted" q || psub "owned" q

/-- Step 1.5's strong-keyword regex `\b(active|live|ongoing|current|right now)\b`. -/
def activeKw (q : List Char) : Bool :=
  pw "active" q || pw "live" q || pw "ongoing" q || pw "current" q || pw "right now" q

/-- The historical-alert keywords (sql_generator.py line 544). -/
def histKw (q : List Char) : Bool :=
  psub "history of" q || psub "before" q || psub "prior to" q || psub "trend of alerts" q

/-- The negative-intent keywords (sql_generator.py line 542). -/
def negIntentKw (q : List Char) : Bool :=
  psub "not generated" q || psub "no alerts" q || psub "without" q || psub "never had" q

/-- Step 2 (lines 503-506): each detected concept's mapped table joins the
set (Python iterates a set, but only inserts, so order is irrelevant). -/
def conceptMapStep (concepts : List String) (S : Finset String) : Finset String :=
  concepts.foldl
    (fun acc c => match conceptToTable c with | some t => insert t acc | none => acc) S

/-- Step 3 (lines 508-520): the combination rules in dict order. -/
def comboStep (concepts : List String) (S : Finset String) : Finset String :=
  comboRules.foldl (applyCombo concepts) S

/-- Step 3.5 (lines 522-530): master-data keywords force the master table
alongside a transactional one. -/
def masterKwStep (qL : List Char) (S : Finset String) : Finset String :=
  if masterDataKw qL ∧ ∃ t ∈ transactionalTables, t ∈ S then
    insert "vts_truck_master" S
  else S

/-- Step 4 (lines 532-537): multi-table joins over a transactional table
pull in the master table. -/
def masterJoinStep (S : Finset String) : Finset String :=
  if 1 < S.card ∧ "vts_truck_master" ∉ S ∧ (∃ t ∈ transactionalTables, t ∈ S) then
    insert "vts_truck_master" S
  else S

/-- The historical-alert rule (lines 542-552): the history table is
suppressed for negative intent, then re-added unconditionally (line 552
runs in both branches). -/
def histAlertStep (concepts : List String) (qL : List Char) (S : Finset String) :
    Finset String :=
  if concepts.contains "alert" ∧ histKw qL then
    insert "vts_alert_history"
      (if negIntentKw qL then S.erase "vts_alert_history" else S)
  else S

/-- The master-support rule (lines 554-558). -/
def vahSupportStep (S : Finset String) : Finset String :=
  if "vts_alert_history" ∈ S ∧ ¬ ("vts_truck_master" ∈ S ∨ "tt_risk_score" ∈ S) then
    insert "vts_truck_master" S
  else S

/-- Steps 1.5 through the master-support rule of lines 554-558, as a pure
function of the question (the schema-inquiry early return and the
example fallback are handled by `determineRelevantTables`). -/
def conceptTables (q : String) : Finset String :=
  vahSupportStep
    (histAlertStep (detectConcepts (lowerS q).toList) (lowerS q).toList
      (masterJoinStep
        (masterKwStep (lowerS q).toList
          (comboStep (detectConcepts (lowerS q).toList)
            (conceptMapStep (detectConcepts (lowerS q).toList)
              (if activeKw (lowerS q).toList then {"vts_ongoing_trips"} else ∅))))))

/-- The trigger alternatives of the schema-inquiry extraction regex
(sql_generator.py line 486). -/
def schemaTriggerAt (l : List Char) : Option (List Char) :=
  if "columns in".toList.isPrefixOf l then some (l.drop 10)
  else if "schema for".toList.isPrefixOf l then some (l.drop 10)
  else if "describe table".toList.isPrefixOf l then some (l.drop 14)
  else if "structure of".toList.isPrefixOf l then some (l.drop 12)
  else if "columns of".toList.isPrefixOf l then some (l.drop 10)
  else none

/-- The optional `(?:\s+table)?` suffix after a table token. -/
def skipOptTable (l : List Char) : List Char :=
  let ws := l.takeWhile isPyWs
  if !ws.isEmpty && "table".toList.isPrefixOf (l.drop ws.length) then
    l.drop (ws.length + 5)
  else l

/-- A separator `\s+and\s+` or `\s*,\s*` (alternation order of the regex). -/
def skipSep (l : List Char) : Option (List Char) :=
  let ws := l.takeWhile isPyWs
  let r := l.drop ws.length
  if !ws.isEmpty && "and".toList.isPrefixOf r &&
      !((r.drop 3).takeWhile isPyWs).isEmpty then
    some ((r.drop 3).dropWhile isPyWs)
  else match r with
    | ',' :: t => some (t.dropWhile isPyWs)
    | _ => none

/-- Further `sep [\w]+ (\s+table)?` iterations of the captured group;
`fuel` bounds recursion by the remaining length. -/
def parseMoreNames : Nat → List String → List Char → List String
  | 0, acc, _ => acc.reverse
  | fuel + 1, acc, l =>
    match skipSep l with
    | none => acc.reverse
    | some r =>
      let w := r.takeWhile isWordChar
      if w.isEmpty then acc.reverse
      else parseMoreNames fuel (String.mk w :: acc) (skipOptTable (r.drop w.length))

/-- Full match of the schema-inquiry regex anchored at this position:
trigger, `\s+`, then the group of table tokens (already split; each token
has its `\s+table` suffix removed, as line 492 does after `re.split`). -/
def schemaTablesAt (l : List Char) : Option (List String) :=
  match schemaTriggerAt l with
  | none => none
  | some rest =>
    match ws1 rest with
    | none => none
    | some r1 =>
      let w := r1.takeWhile isWordChar
      if w.isEmpty then none
      else some (parseMoreNames l.length [String.mk w]
        (skipOptTable (r1.drop w.length)))

/-- `re.search`: leftmost position where the schema regex matches. -/
def findSchemaTables : Nat → List Char → List String
  | 0, _ => []
  | fuel + 1, l =>
    match schemaTablesAt l with
    | some names => names
    | none => match l with
      | [] => []
      | _ :: t => findSchemaTables fuel t

/-- The RAG-example fallback of step 5 (lines 561-567): tables
word-matching any example SQL, case-insensitively.  Examples are given as
their metadata SQL strings (missing metadata is the empty string). -/
def exampleTables (ctxSqls : List String) : Finset String :=
  ctxSqls.foldl
    (fun acc sqlEx =>
      if sqlEx ≠ "" then
        allowedTables.foldl
          (fun a t => if occursWordCI t sqlEx then insert t a else a) acc
      else acc) ∅

/-- `_determine_relevant_tables` (sql_generator.py lines 462-570): the
schema-inquiry early return (lines 483-497), otherwise the concept chain,
the example fallback when it produced nothing, and the final default. -/
def determineRelevantTables (q : String) (ctxSqls : List String) : Finset String :=
  if (detectConcepts (lowerS q).toList).contains "schema_inquiry" then
    ((findSchemaTables (lowerS q).toList.length (lowerS q).toList).filter
      (fun t => allowedTables.contains t)).toFinset
  else if conceptTables q = ∅ then
    (if exampleTables ctxSqls ≠ ∅ then exampleTables ctxSqls
     else {"vts_alert_history", "vts_truck_master"})
  else conceptTables q

/-! ### Lemmas for the master-table invariant -/

theorem mem_conceptMapStep_self {x : String} (concepts : List String) {S : Finset String}
    (h : x ∈ S) : x ∈ conceptMapStep concepts S := by
  induction concepts generalizing S with
  | nil => exact h
  | cons c t ih =>
    unfold conceptMapStep
    rw [List.foldl_cons]
    cases hm : conceptToTable c with
    | none => exact ih h
    | some u => exact ih (Finset.mem_insert_of_mem h)

theorem mem_conceptMapStep_of {c t : String} (concepts : List String) (S : Finset String)
    (hc : c ∈ concepts) (ht : conceptToTable c = some t) :
    t ∈ conceptMapStep concepts S := by
  induction concepts generalizing S with
  | nil => cases hc
  | cons a l ih =>
    unfold conceptMapStep
    rw [List.foldl_cons]
    rcases List.mem_cons.mp hc with rfl | hmem
    · rw [ht]
      exact mem_conceptMapStep_self l (Finset.mem_insert_self _ _)
    · cases hm : conceptToTable a with
      | none => exact ih _ hmem
      | some u => exact ih _ hmem

theorem applyCombo_mem {x : String} {S : Finset String}
    (concepts : List String) (rule : List String × String)
    (hx : x ∈ S) (h1 : x ≠ "tt_risk_score") (h2 : x ≠ "vts_alert_history") :
    x ∈ applyCombo concepts S rule := by
  unfold applyCombo
  by_cases hap : rule.1.all (fun c => concepts.contains c) = true
  · rw [if_pos hap]
    apply Finset.mem_insert_of_mem
    by_cases hc : rule.2 = "completed_trips_risk_score"
    · rw [if_pos hc]
      refine Finset.mem_erase.mpr ⟨h2, Finset.mem_erase.mpr ⟨h1, ?_⟩⟩
      by_cases htr : rule.2 = "transporter_risk_score"
      · rw [if_pos htr]; exact Finset.mem_erase.mpr ⟨h1, hx⟩
      · rw [if_neg htr]; exact hx
    · rw [if_neg hc]
      by_cases htr : rule.2 = "transporter_risk_score"
      · rw [if_pos htr]; exact Finset.mem_erase.mpr ⟨h1, hx⟩
      · rw [if_neg htr]; exact hx
  · rw [if_neg hap]; exact hx

theorem comboStep_mem {x : String} {S : Finset String} (concepts : List String)
    (hx : x ∈ S) (h1 : x ≠ "tt_risk_score") (h2 : x ≠ "vts_alert_history") :
    x ∈ comboStep concepts S := by
  unfold comboStep
  generalize comboRules = rules
  induction rules generalizing S with
  | nil => exact hx
  | cons r l ih =>
    rw [List.foldl_cons]
    exact ih (applyCombo_mem concepts r hx h1 h2)

theorem masterKwStep_mem {x : String} {S : Finset String} (qL : List Char)
    (hx : x ∈ S) : x ∈ masterKwStep qL S := by
  unfold masterKwStep
  by_cases h : masterDataKw qL = true ∧ ∃ t ∈ transactionalTables, t ∈ S
  · rw [if_pos h]; exact Finset.mem_insert_of_mem hx
  · rw [if_neg h]; exact hx

theorem masterJoinStep_mem {x : String} {S : Finset String}
    (hx : x ∈ S) : x ∈ masterJoinStep S := by
  unfold masterJoinStep
  by_cases h : 1 < S.card ∧ "vts_truck_master" ∉ S ∧ (∃ t ∈ transactionalTables, t ∈ S)
  · rw [if_pos h]; exact Finset.mem_insert_of_mem hx
  · rw [if_neg h]; exact hx

theorem vahSupportStep_mem {x : String} {S : Finset String}
    (hx : x ∈ S) : x ∈ vahSupportStep S := by
  unfold vahSupportStep
  by_cases h : "vts_alert_history" ∈ S ∧ ¬ ("vts_truck_master" ∈ S ∨ "tt_risk_score" ∈ S)
  · rw [if_pos h]; exact Finset.mem_insert_of_mem hx
  · rw [if_neg h]; exact hx

/-- Step 4 establishes the bridge: its output, when it has two or more
tables one of which is transactional, contains the master table. -/
theorem masterJoinStep_bridged (S : Finset String)
    (hcard : 2 ≤ (masterJoinStep S).card)
    (htrans : ∃ t ∈ transactionalTables, t ∈ masterJoinStep S) :
    "vts_truck_master" ∈ masterJoinStep S := by
  unfold masterJoinStep at *
  by_cases h : 1 < S.card ∧ "vts_truck_master" ∉ S ∧ (∃ t ∈ transactionalTables, t ∈ S)
  · rw [if_pos h]; exact Finset.mem_insert_self _ _
  · rw [if_neg h] at hcard htrans ⊢
    push_neg at h
    by_cases hm : "vts_truck_master" ∈ S
    · exact hm
    · obtain ⟨t, htm, hts⟩ := htrans
      exact absurd hts (h hcard hm t htm)

/-- The invariant survives the two rules after step 4: whenever the final
set has two or more tables including a transactional one, the master table
is present.  The `halerts` hypothesis is discharged by the concept chain
in the main theorem. -/
theorem post_chain_master (concepts : List String) (qL : List Char) (S : Finset String)
    (halerts : (concepts.contains "alert" = true ∧ histKw qL = true) →
      "alerts" ∈ masterJoinStep S)
    (hcard : 2 ≤ (vahSupportStep (histAlertStep concepts qL (masterJoinStep S))).card)
    (htrans : ∃ t ∈ transactionalTables,
      t ∈ vahSupportStep (histAlertStep concepts qL (masterJoinStep S))) :
    "vts_truck_master" ∈ vahSupportStep (histAlertStep concepts qL (masterJoinStep S)) := by
  by_cases hH : concepts.contains "alert" = true ∧ histKw qL = true
  · have hal : "alerts" ∈ masterJoinStep S := halerts hH
    by_cases hc4 : 2 ≤ (masterJoinStep S).card
    · have hm4 : "vts_truck_master" ∈ masterJoinStep S :=
        masterJoinStep_bridged S hc4 ⟨"alerts", by decide, hal⟩
      refine vahSupportStep_mem ?_
      unfold histAlertStep
      rw [if_pos hH]
      refine Finset.mem_insert_of_mem ?_
      by_cases hn : negIntentKw qL = true
      · rw [if_pos hn]; exact Finset.mem_erase.mpr ⟨by decide, hm4⟩
      · rw [if_neg hn]; exact hm4
    · push_neg at hc4
      have h1 : (masterJoinStep S).card = 1 :=
        Nat.le_antisymm (by omega) (Finset.card_pos.mpr ⟨_, hal⟩)
      obtain ⟨a, ha⟩ := Finset.card_eq_one.mp h1
      have hae : a = "alerts" := by
        rw [ha] at hal; exact (Finset.mem_singleton.mp hal).symm
      subst hae
      have h5 : histAlertStep concepts qL (masterJoinStep S) =
          insert "vts_alert_history" {"alerts"} := by
        unfold histAlertStep
        rw [if_pos hH, ha]
        by_cases hn : negIntentKw qL = true
        · rw [if_pos hn, Finset.erase_eq_of_not_mem (by decide)]
        · rw [if_neg hn]
      rw [h5]
      unfold vahSupportStep
      rw [if_pos (by decide)]
      exact Finset.mem_insert_self _ _
  · have h5 : histAlertStep concepts qL (masterJoinStep S) = masterJoinStep S := by
      unfold histAlertStep; rw [if_neg hH]
    rw [h5] at hcard htrans ⊢
    unfold vahSupportStep at hcard htrans ⊢
    by_cases hv : "vts_alert_history" ∈ masterJoinStep S ∧
        ¬ ("vts_truck_master" ∈ masterJoinStep S ∨ "tt_risk_score" ∈ masterJoinStep S)
    · rw [if_pos hv]; exact Finset.mem_insert_self _ _
    · rw [if_neg hv] at hcard htrans ⊢
      exact masterJoinStep_bridged S hcard htrans

theorem determineRelevantTables_concept (q : String) (ctx : List String)
    (h1 : (detectConcepts (lowerS q).toList).contains "schema_inquiry" = false)
    (h2 : conceptTables q ≠ ∅) :
    determineRelevantTables q ctx = conceptTables q := by
  unfold determineRelevantTables
  rw [h1]
  simp only [Bool.false_eq_true, if_false]
  rw [if_neg h2]

/-- **C9** (counterexample).  For the question "columns in alerts and
tt_risk_score", `_determine_relevant_tables` returns exactly
{alerts, tt_risk_score}: two or more tables, at least one transactional,
yet without vts_truck_master — the schema-inquiry early return at
sql_generator.py line 496 bypasses the join-bridging steps 3.5-4.5, so
the claimed invariant fails as stated. -/
theorem c9_counterexample :
    determineRelevantTables "columns in alerts and tt_risk_score" [] =
      ({"alerts", "tt_risk_score"} : Finset String) ∧
    2 ≤ (determineRelevantTables "columns in alerts and tt_risk_score" []).card ∧
    (∃ t ∈ transactionalTables,
      t ∈ determineRelevantTables "columns in alerts and tt_risk_score" []) ∧
    "vts_truck_master" ∉ determineRelevantTables "columns in alerts and tt_risk_score" [] := by
  decide

/-- **C9** (amended).  On the concept-driven path — the question is not a
schema inquiry, and the concept chain itself produced a nonempty table
set, so neither the example fallback nor the final default fires — the
claimed invariant holds: whenever the returned set has two or more tables
and contains a transactional table, it contains vts_truck_master. -/
theorem c9_master_table_invariant (q : String) (ctx : List String)
    (hschema : (detectConcepts (lowerS q).toList).contains "schema_inquiry" = false)
    (hcore : conceptTables q ≠ ∅)
    (hcard : 2 ≤ (determineRelevantTables q ctx).card)
    (htrans : ∃ t ∈ transactionalTables, t ∈ determineRelevantTables q ctx) :
    "vts_truck_master" ∈ determineRelevantTables q ctx := by
  rw [determineRelevantTables_concept q ctx hschema hcore] at hcard htrans ⊢
  unfold conceptTables at hcard htrans ⊢
  refine post_chain_master _ _ _ ?_ hcard htrans
  rintro ⟨hA, _⟩
  refine masterJoinStep_mem (masterKwStep_mem _ (comboStep_mem _ ?_ (by decide) (by decide)))
  exact mem_conceptMapStep_of _ _ (List.elem_iff.mp hA) (by decide)

theorem c9_master_table_invariant_witness :
    (detectConcepts (lowerS "alerts for transporter x").toList).contains "schema_inquiry"
        = false ∧
    conceptTables "alerts for transporter x" ≠ ∅ ∧
    2 ≤ (determineRelevantTables "alerts for transporter x" []).card ∧
    "vts_truck_master" ∈ determineRelevantTables "alerts for transporter x" [] :=
  ⟨by decide, by decide, by decide,
    c9_master_table_invariant "alerts for transporter x" [] (by decide) (by decide)
      (by decide) (by decide)⟩

/-! ## The pipeline controller
(`ProductionSQLGenerator.generate_sql` from line 1107, together with
`_get_tables_from_sql`, `_validate_logical_plan` and
`_perform_sanity_checks`, sql_generator.py lines 1107-1340)

Collaborators are abstracted as functions: the database (`execute_query`),
the gold-standard retrieval, the regeneration LLM call and the final
answer synthesis.  An execution result keeps the fields the controller
reads: `success`, the row list (opaque row representations), the column
names, the optional reported `count` and the optional `error` message. -/

structure ExecResult where
  success : Bool
  rows : List String
  columns : List String
  count : Option Nat
  error : Option String
deriving DecidableEq

structure PipeEnv where
  goldStandard : Option String
  execute : String → ExecResult
  regen : String → String → String × Bool × String
  answerOf : ExecResult → String

/-- The outcome of the modelled suffix: the returned answer, SQL and
source, what (if anything) was passed to `cache_successful_query`, the
returned data rows, and whether the run escaped to the outer exception
handler (line 1195). -/
structure PipeOut where
  answer : String
  sqlQuery : Option String
  source : String
  cached : Option (String × String)
  dataRows : Option (List String)
  crashed : Bool
deriving DecidableEq

/-- `DATA_MODEL["sanity_check_rules"]["max_rows"]` (training_data.py
line 1612). -/
def maxRows : Nat := 20000

/-- The row-count-anomaly condition of sanity check 1 (sql_generator.py
line 1257): the effective row count (the reported `count`, defaulting to
the number of returned rows) exceeds `max_rows` while the lowered
question mentions none of "all", "every", "count". -/
def rowCountAnomaly (q : String) (res : ExecResult) : Bool :=
  decide (maxRows < res.count.getD res.rows.length) &&
    !strContains (lowerS q) "all" && !strContains (lowerS q) "every" &&
    !strContains (lowerS q) "count"

/-- The check-1 feedback message (line 1258). -/
def rowCountMsg (res : ExecResult) : String :=
  "Your previous query returned " ++ toString (res.count.getD res.rows.length) ++
    " rows, which is abnormally high (> " ++ toString maxRows ++
    "). This suggests a Cartesian product (bad JOIN) OR a missing LIMIT clause. " ++
    "You MUST rewrite the query to either fix the JOIN conditions or add `LIMIT 100` " ++
    "if you don't need all data."

/-- The `required_concepts` dict of sanity check 2 (lines 1264-1269). -/
def requiredConcepts : List (String × List String) :=
  [("risk score", ["risk_score"]),
   ("transporter", ["transporter_name", "transporter_code"]),
   ("driver", ["driver_name"]),
   ("last alert", ["last_alert_time", "last_violation_type"])]

/-- The first concept failing sanity check 2 (lines 1271-1289): the
question mentions it, no related column appears in the lowered output
columns, the query does not select `*`, and the implicit-aggregation
escape (column used in the SQL text of an aggregating query) does not
apply. -/
def check2Find (q sql : String) (columns : List String) :
    Option (String × List String) :=
  requiredConcepts.find? (fun p =>
    !strContains sql "*" && strContains (lowerS q) p.1 &&
      !(p.2.any (fun col => columns.contains col)) &&
      !((strContains (lowerS sql) "group by" ||
          ["count(", "sum(", "avg(", "max(", "min("].any
            (fun a => strContains (lowerS sql) a)) &&
        p.2.any (fun col => strContains (lowerS sql) col)))

/-- `DATA_MODEL["time_semantics"]` (training_data.py lines 1591-1597). -/
def timeSemantics (t : String) : Option String :=
  if t = "alerts" then some "alerts.created_at"
  else if t = "closed_alerts" then some "alerts.closed_at"
  else if t = "violation_history" then some "vts_alert_history.vts_end_datetime"
  else if t = "live_trips" then some "vts_ongoing_trips.event_start_datetime"
  else if t = "trip_audit" then some "vts_tripauditmaster.createdat"
  else none

/-- `canonical.split('.')[-1]`: the part after the last dot (the whole
list when there is no dot). -/
def afterLastDot (l : List Char) : List Char :=
  (l.reverse.takeWhile (fun c => c ≠ '.')).reverse

/-- One comparison operator of the check-3 regex, in alternation order. -/
def opAt (l : List Char) : Option (List Char) :=
  if ">=".toList.isPrefixOf l then some (l.drop 2)
  else if "<=".toList.isPrefixOf l then some (l.drop 2)
  else if "=".toList.isPrefixOf l then some (l.drop 1)
  else if "<".toList.isPrefixOf l then some (l.drop 1)
  else if ">".toList.isPrefixOf l then some (l.drop 1)
  else if ciPrefixL "between".toList l then some (l.drop 7)
  else none

/-- A quoted ISO date literal `'\d{4}-\d{2}-\d{2}'` at this position. -/
def dateQuoteAt (l : List Char) : Bool :=
  match l with
  | '\'' :: a :: b :: c :: d :: m1 :: e :: f :: m2 :: g :: h :: q2 :: _ =>
    a.isDigit && b.isDigit && c.isDigit && d.isDigit && m1 = '-' && e.isDigit &&
      f.isDigit && m2 = '-' && g.isDigit && h.isDigit && q2 = '\''
  | _ => false

/-- The right-hand side of the check-3 regex after the column:
`\s*(?:>=|<=|=|<|>|between)\s*(?:current_date|current_timestamp|date)`
(literals case-insensitive). -/
def opValue (l : List Char) : Bool :=
  match opAt (l.dropWhile isPyWs) with
  | some r =>
    ciPrefixL "current_date".toList (r.dropWhile isPyWs) ||
      ciPrefixL "current_timestamp".toList (r.dropWhile isPyWs) ||
      dateQuoteAt (r.dropWhile isPyWs)
  | none => false

/-- Greedy backtracking over the second `\w+` of the group: the longest
prefix of the word run after which operator and value match. -/
def splitRun2 : Nat → List Char → List Char → Option (List Char)
  | 0, _, _ => none
  | k + 1, w2, rest =>
    if opValue ((w2.drop (k + 1)) ++ rest) then some (w2.take (k + 1))
    else splitRun2 k w2 rest

/-- The check-3 regex `(\w+\.\w+)\s*op\s*value` anchored here; returns
the captured group already split at its single dot (alias, column). -/
def check3At (l : List Char) : Option (String × String) :=
  let w1 := l.takeWhile isWordChar
  if w1.isEmpty then none
  else match l.drop w1.length with
    | '.' :: r2 =>
      let w2 := r2.takeWhile isWordChar
      if w2.isEmpty then none
      else match splitRun2 w2.length w2 (r2.drop w2.length) with
        | some col => some (String.mk w1, String.mk col)
        | none => none
    | _ => none

/-- `re.search` for the check-3 regex (line 1292): leftmost match. -/
def timeFilterSearch : Nat → List Char → Option (String × String)
  | 0, _ => none
  | fuel + 1, l =>
    match check3At l with
    | some pr => some pr
    | none => match l with
      | [] => none
      | _ :: t => timeFilterSearch fuel t

/-- `alias\b` for the alias-resolution regex: the alias
(case-insensitively), not followed by a word character. -/
def aliasTail (al rest w : List Char) : Option (List Char) :=
  if ciPrefixL al rest then
    match rest.drop al.length with
    | [] => some w
    | c :: _ => if isWordChar c then none else some w
  else none

/-- First branch `\b(\w+)\s+as\s+alias\b` of the alias regex (line 1299),
anchored at a word boundary. -/
def aliasBranch1 (al l : List Char) : Option (List Char) :=
  let w := l.takeWhile isWordChar
  if w.isEmpty then none
  else
    if (l.drop w.length).takeWhile isPyWs = [] then none
    else
      if ciPrefixL "as".toList ((l.drop w.length).dropWhile isPyWs) then
        if (((l.drop w.length).dropWhile isPyWs).drop 2).takeWhile isPyWs = [] then none
        else aliasTail al ((((l.drop w.length).dropWhile isPyWs).drop 2).dropWhile isPyWs) w
      else none

/-- Second branch `\b(\w+)\s+alias\b` of the alias regex. -/
def aliasBranch2 (al l : List Char) : Option (List Char) :=
  let w := l.takeWhile isWordChar
  if w.isEmpty then none
  else
    if (l.drop w.length).takeWhile isPyWs = [] then none
    else aliasTail al ((l.drop w.length).dropWhile isPyWs) w

/-- `re.search` for the alias-resolution regex: leftmost position at a
word boundary where either branch matches, first branch preferred. -/
def aliasTableSearch (al : List Char) : Nat → Option Char → List Char → Option String
  | 0, _, _ => none
  | fuel + 1, prev, l =>
    match l with
    | [] => none
    | c :: t =>
      if (match prev with | none => true | some p => !isWordChar p) then
        match aliasBranch1 al l with
        | some w => some (String.mk w)
        | none =>
          match aliasBranch2 al l with
          | some w => some (String.mk w)
          | none => aliasTableSearch al fuel (some c) t
      else aliasTableSearch al fuel (some c) t

/-- Sanity check 4 (lines 1321-1337), reached when checks 1-3 pass. -/
def check4Part (q sql source : String) : Bool × String :=
  if (["not generated", "no alerts", "without", "never had", "no data"].any
      (fun k => strContains (lowerS q) k)) ∧ ¬ strContains source "deterministic" then
    if ¬ strContains (lowerS sql) "not exists" ∧
        (¬ strContains (lowerS sql) "left join" ∨ ¬ strContains (lowerS sql) "is null") ∧
        ¬ strContains (lowerS sql) "except" then
      (false,
        "LOGICAL ERROR: The question has negative intent (e.g., 'no alerts'), but the " ++
          "SQL does not use a proper exclusion pattern like NOT EXISTS or LEFT JOIN..." ++
          "IS NULL. You MUST rewrite the query to start from a master table (like " ++
          "vts_truck_master) and check for the non-existence of records in the " ++
          "transactional table.")
    else if ¬ strContains (lowerS sql) "from vts_truck_master" then
      (false,
        "LOGICAL ERROR: A negative query (e.g., 'no alerts') must start by selecting " ++
          "from the master list of all vehicles (`FROM vts_truck_master ...`) and then " ++
          "check for non-existence in other tables. Your query started from the wrong " ++
          "table.")
    else (true, "")
  else (true, "")

/-- Sanity check 3 (lines 1291-1319) followed by check 4: a canonical
time-column violation fails, anything else falls through.  (The feedback
text of line 1316 is reproduced without the f-string formatting.) -/
def check3Part (q sql source : String) : Bool × String :=
  match timeFilterSearch sql.toList.length sql.toList with
  | none => check4Part q sql source
  | some pr =>
    match aliasTableSearch pr.1.toList sql.toList.length none sql.toList with
    | none => check4Part q sql source
    | some tname =>
      match timeSemantics tname with
      | none => check4Part q sql source
      | some canonical =>
        if pr.2 ≠ String.mk (afterLastDot canonical.toList) then
          (false,
            "Temporal Logic Error: You used '" ++ pr.2 ++ "' for filtering on '" ++
              tname ++ "'. You MUST use '" ++ canonical ++
              "' for time-based queries on this table.")
        else check4Part q sql source

/-- `_perform_sanity_checks` (lines 1240-1340): deterministic-schema
queries are exempt; otherwise checks 1 (row-count anomaly), 2 (missing
concept columns), 3 (canonical time column) and 4 (negative-intent
exclusion logic) run in order, the first failure returning its feedback.
(The check-2 feedback reproduces the message without Python's list
formatting of the column names.) -/
def sanityChecks (q sql : String) (res : ExecResult) (source : String) : Bool × String :=
  if source = "deterministic_schema_pattern" then (true, "")
  else if rowCountAnomaly q res then (false, rowCountMsg res)
  else match check2Find q sql (res.columns.map lowerS) with
    | some p =>
      (false,
        "Your previous query was logically incomplete. The user asked for '" ++ p.1 ++
          "', but your query's output columns (" ++
          ", ".intercalate (res.columns.map lowerS) ++
          ") did not contain the required information. You MUST rewrite the query to " ++
          "select one of the following columns: " ++ ", ".intercalate p.2 ++ ".")
    | none => check3Part q sql source

/-- `_get_tables_from_sql`'s regex `\b(?:from|join)\s+([\w\.]+)`
(IGNORECASE, line 1208): all non-overlapping captures, scanning with the
previous character for the word boundary. -/
def fromJoinAux : Nat → Option Char → List Char → List String
  | 0, _, _ => []
  | fuel + 1, prev, l =>
    match l with
    | [] => []
    | c :: t =>
      if (match prev with | none => true | some p => !isWordChar p) &&
          (ciPrefixL "from".toList l || ciPrefixL "join".toList l) &&
          !((l.drop 4).takeWhile isPyWs).isEmpty &&
          !(((l.drop 4).dropWhile isPyWs).takeWhile
              (fun x => isWordChar x || x = '.')).isEmpty then
        String.mk (((l.drop 4).dropWhile isPyWs).takeWhile
            (fun x => isWordChar x || x = '.')) ::
          fromJoinAux fuel
            (some ((((l.drop 4).dropWhile isPyWs).takeWhile
              (fun x => isWordChar x || x = '.')).getLastD '.'))
            (((l.drop 4).dropWhile isPyWs).dropWhile (fun x => isWordChar x || x = '.'))
      else fromJoinAux fuel (some c) t

/-- `_get_tables_from_sql` (lines 1204-1210): captured names filtered by
the validator's allowed-table list, as a set. -/
def getTablesFromSql (sql : String) : Finset String :=
  ((fromJoinAux sql.toList.length none sql.toList).filter
    (fun t => allowedTables.contains t)).toFinset

/-- The exclusion-pattern indicator of `_validate_logical_plan`
(lines 1229-1230). -/
def hasExclusionPattern (sql : String) : Bool :=
  strContains (lowerS sql) "not exists" ||
    (strContains (lowerS sql) "left join" && strContains (lowerS sql) "is null")

/-- `_validate_logical_plan` (lines 1212-1238); the table-mismatch
feedback reproduces the message without Python's set formatting. -/
def validateLogicalPlan (genSql goldSql : String) : Bool × String :=
  if getTablesFromSql genSql ≠ getTablesFromSql goldSql then
    (false,
      "Logical Plan Mismatch: Your query used different tables than a similar trusted " ++
        "query. You MUST reconsider the tables and joins.")
  else if hasExclusionPattern genSql ≠ hasExclusionPattern goldSql then
    (false,
      "Logical Plan Mismatch: The logic for exclusion (e.g., 'not generated', " ++
        "'without') is incorrect. A similar trusted query used a different exclusion " ++
        "pattern. You MUST use `NOT EXISTS` or `LEFT JOIN ... IS NULL` if the " ++
        "question has negative intent.")
  else (true, "")

/-- The state of the Python local `execution_result` after the
logical-plan phase: never assigned, assigned `None`, or the synthetic
failure dict of line 1117 (carrying the logical feedback). -/
inductive ErState
  | unassigned
  | cleared
  | planFail (feedback : String)
deriving DecidableEq

/-- Lines 1107-1127: the proactive logical-plan phase.  Returns the
`sql_query` and `execution_result` state it leaves behind. -/
def planPhase (env : PipeEnv) (sql0 : Option String) (source0 : String) :
    Option String × ErState :=
  match sql0 with
  | none => (none, ErState.unassigned)
  | some s =>
    if s = "" then (some s, ErState.unassigned)
    else if strContains source0 "llm" then
      match env.goldStandard with
      | some gold =>
        if (validateLogicalPlan s gold).1 = false then
          (none, ErState.planFail (validateLogicalPlan s gold).2)
        else (some s, ErState.cleared)
      | none => (some s, ErState.cleared)
    else (some s, ErState.cleared)

def apologyMsg : String :=
  "I'm sorry, I was unable to generate a correct query for your request after multiple attempts."

/-- `error_feedback` of line 1148: the sanity feedback if nonempty,
otherwise the execution error (with its dict-lookup default). -/
def errFeedback (sanity : Bool × String) (res1 : ExecResult) : String :=
  if sanity.2 ≠ "" then sanity.2
  else res1.error.getD "An unknown execution or logical error occurred."

/-- Lines 1170-1175: the regenerated query is executed and accepted (and
cached) on bare execution success — no sanity checks are re-run. -/
def regenExec (env : PipeEnv) (rsql newSource : String) (res2 : ExecResult) : PipeOut :=
  if res2.success then
    { answer := env.answerOf res2, sqlQuery := some rsql, source := newSource,
      cached := some (rsql, newSource), dataRows := some res2.rows, crashed := false }
  else
    { answer := apologyMsg, sqlQuery := some rsql, source := newSource,
      cached := none, dataRows := some res2.rows, crashed := false }

/-- Lines 1163-1178: dispatch on the regeneration call's result
`r = (sql, success, model_used)`. -/
def regenPhase2 (env : PipeEnv) (s source0 : String) (res1 : ExecResult)
    (r : String × Bool × String) : PipeOut :=
  if r.2.1 then
    regenExec env r.1 ("regenerated_llm_" ++ r.2.2) (env.execute r.1)
  else
    { answer := apologyMsg, sqlQuery := some s, source := source0,
      cached := none, dataRows := some res1.rows, crashed := false }

/-- Lines 1146-1178: forced regeneration with the error feedback. -/
def regenPhase (env : PipeEnv) (s source0 : String) (res1 : ExecResult)
    (feedback : String) : PipeOut :=
  regenPhase2 env s source0 res1 (env.regen feedback s)

/-- Lines 1131-1178 given the first execution's result and its sanity
verdict: accept-and-cache on success, otherwise force regeneration. -/
def execPhase2 (env : PipeEnv) (_q s source0 : String) (res1 : ExecResult)
    (sanity : Bool × String) : PipeOut :=
  if res1.success && sanity.1 then
    { answer := env.answerOf res1, sqlQuery := some s, source := source0,
      cached := if !strContains (lowerS s) "llm generation failed" then
          some (s, source0)
        else none,
      dataRows := some res1.rows, crashed := false }
  else regenPhase env s source0 res1 (errFeedback sanity res1)

def execPhase (env : PipeEnv) (q s source0 : String) : PipeOut :=
  execPhase2 env q s source0 (env.execute s) (sanityChecks q s (env.execute s) source0)

/-- The escape to the outer handler (lines 1195-1202): the Python suffix
raises (`execution_result` unassigned or `None` at line 1181) and the
handler returns a critical-error answer without a source. -/
def crashOut : PipeOut :=
  { answer := "critical_error", sqlQuery := none, source := "", cached := none,
    dataRows := none, crashed := true }

/-- The modelled suffix of `generate_sql` (lines 1107-1202), given the
`sql_query` and `source` produced by the earlier pipeline steps (which
never assign `execution_result`). -/
def generateSqlFrom (env : PipeEnv) (q : String) (sql0 : Option String)
    (source0 : String) : PipeOut :=
  match planPhase env sql0 source0 with
  | (some s, ErState.cleared) =>
    if s ≠ "" then execPhase env q s source0 else crashOut
  | (_, ErState.planFail fb) =>
    { answer := "I'm sorry, I could not generate a valid query for your request. " ++
        "The last attempt failed with: " ++ fb,
      sqlQuery := none, source := source0, cached := none, dataRows := none,
      crashed := false }
  | (_, _) => crashOut

/-- When the source is not the deterministic schema pattern and the
row-count anomaly fires, the sanity checks fail with the check-1
feedback (check 1 runs first, lines 1255-1260). -/
theorem sanityChecks_flag (q sql : String) (res : ExecResult) (source : String)
    (hdet : source ≠ "deterministic_schema_pattern")
    (hanom : rowCountAnomaly q res = true) :
    sanityChecks q sql res source = (false, rowCountMsg res) := by
  unfold sanityChecks
  rw [if_neg hdet, hanom]
  rfl

def qC3 : String := "show anomalous join result"

def sqlC3 : String :=
  "SELECT * FROM alerts a JOIN vts_truck_master m ON a.vehicle_number = m.truck_no"

def resC3 : ExecResult :=
  { success := true, rows := ["r"], columns := [], count := some 25000, error := none }

/-- A pipeline environment whose executions always succeed with 25000
rows and whose regeneration call returns the very same SQL. -/
def envC3 : PipeEnv :=
  { goldStandard := none, execute := fun _ => resC3,
    regen := fun _ _ => (sqlC3, true, "mistral"), answerOf := fun _ => "answer" }

/-- **C3** (counterexample).  With `envC3`, the first execution of
`sqlC3` is flagged by the row-count-anomaly check, regeneration returns
the identical SQL, and the pipeline then accepts, answers and caches it
on bare execution success — it is still anomalous (lines 1163-1172 never
re-run `_perform_sanity_checks`), so a flagged query IS silently accepted
unchanged. -/
theorem c3_counterexample :
    rowCountAnomaly qC3 (envC3.execute sqlC3) = true ∧
    (generateSqlFrom envC3 qC3 (some sqlC3) "full_context_llm_mistral").answer = "answer" ∧
    (generateSqlFrom envC3 qC3 (some sqlC3) "full_context_llm_mistral").sqlQuery =
      some sqlC3 ∧
    (generateSqlFrom envC3 qC3 (some sqlC3) "full_context_llm_mistral").cached =
      some (sqlC3, "regenerated_llm_mistral") ∧
    (sanityChecks qC3 sqlC3 (envC3.execute sqlC3) "regenerated_llm_mistral").1 = false :=
  ⟨rfl, rfl, rfl, rfl, rfl⟩

/-- **C3** (amended).  Whenever the logical-plan phase clears a nonempty
query for execution and the first execution is flagged by the
row-count-anomaly check, the pipeline always forces a regeneration, and
the outcome is fully determined by the regeneration call and a bare
execution of its SQL: a reported apology failure when regeneration or its
execution fails, and otherwise acceptance with answer and caching of the
regenerated SQL — without re-running the sanity checks, so the accepted
query may still be anomalous (even identical to the flagged one).  The
original claim's guarantee does not hold; this characterization is what
the code ensures. -/
theorem c3_flagged_forces_regeneration (env : PipeEnv) (q s source0 : String)
    (rsql : String) (rok : Bool) (rmodel : String)
    (hdet : source0 ≠ "deterministic_schema_pattern")
    (hplan : planPhase env (some s) source0 = (some s, ErState.cleared))
    (hs : s ≠ "")
    (hanom : rowCountAnomaly q (env.execute s) = true)
    (hr : env.regen
        (errFeedback (sanityChecks q s (env.execute s) source0) (env.execute s)) s =
      (rsql, rok, rmodel)) :
    (rok = false →
      generateSqlFrom env q (some s) source0 =
        { answer := apologyMsg, sqlQuery := some s, source := source0, cached := none,
          dataRows := some (env.execute s).rows, crashed := false }) ∧
    (rok = true → (env.execute rsql).success = false →
      generateSqlFrom env q (some s) source0 =
        { answer := apologyMsg, sqlQuery := some rsql,
          source := "regenerated_llm_" ++ rmodel, cached := none,
          dataRows := some (env.execute rsql).rows, crashed := false }) ∧
    (rok = true → (env.execute rsql).success = true →
      generateSqlFrom env q (some s) source0 =
        { answer := env.answerOf (env.execute rsql), sqlQuery := some rsql,
          source := "regenerated_llm_" ++ rmodel,
          cached := some (rsql, "regenerated_llm_" ++ rmodel),
          dataRows := some (env.execute rsql).rows, crashed := false }) := by
  have hflag : (sanityChecks q s (env.execute s) source0).1 = false := by
    rw [sanityChecks_flag q s (env.execute s) source0 hdet hanom]
  have hgen : generateSqlFrom env q (some s) source0 =
      regenPhase2 env s source0 (env.execute s) (rsql, rok, rmodel) := by
    unfold generateSqlFrom
    rw [hplan]
    simp only []
    rw [if_pos hs]
    unfold execPhase execPhase2
    rw [hflag, Bool.and_false]
    simp only [Bool.false_eq_true, if_false]
    unfold regenPhase
    rw [hr]
  refine ⟨?_, ?_, ?_⟩
  · intro hrok
    rw [hgen]
    unfold regenPhase2
    simp only [hrok, Bool.false_eq_true, if_false]
  · intro hrok hfail
    rw [hgen]
    unfold regenPhase2
    simp only [hrok, if_true]
    unfold regenExec
    simp only [hfail, Bool.false_eq_true, if_false]
  · intro hrok hok
    rw [hgen]
    unfold regenPhase2
    simp only [hrok, if_true]
    unfold regenExec
    simp only [hok, if_true]

theorem c3_flagged_forces_regeneration_witness :
    "full_context_llm_mistral" ≠ "deterministic_schema_pattern" ∧
    sqlC3 ≠ "" ∧
    rowCountAnomaly qC3 (envC3.execute sqlC3) = true ∧
    generateSqlFrom envC3 qC3 (some sqlC3) "full_context_llm_mistral" =
      { answer := "answer", sqlQuery := some sqlC3,
        source := "regenerated_llm_mistral",
        cached := some (sqlC3, "regenerated_llm_mistral"),
        dataRows := some ["r"], crashed := false } :=
  ⟨by decide, by decide, rfl,
    (c3_flagged_forces_regeneration envC3 qC3 sqlC3 "full_context_llm_mistral"
      sqlC3 true "mistral" (by decide) rfl (by decide) rfl rfl).2.2 rfl rfl⟩
